import Mathlib

/-!
Shallow embedding of the pep_tipbot ledger core (pep_tipbot.py).

The SQLite `users` table is modelled as an association list keyed by the
numeric chat id; the `transfers` table as an append-only list.  Decimal
amounts are modelled as exact rationals; timestamps as integers.  The
external wallet RPC is modelled as oracle inputs: the cumulative confirmed
receipts reported for an address, and a send function returning an optional
transmission id (`none` models an RPC exception).
-/

namespace PepTipbot

/-- Configuration defaults from the environment block of the source:
FAUCET_AMOUNT = 50. -/
def FAUCET_AMOUNT : ℚ := 50

/-- FAUCET_INTERVAL_SECONDS default 7200. -/
def FAUCET_INTERVAL : ℤ := 7200

/-- WITHDRAW_FEE default 1.0. -/
def WITHDRAW_FEE : ℚ := 1

/-- ACTIVE_WINDOW_SECONDS default 1800. -/
def ACTIVE_WINDOW : ℤ := 1800

/-- One row of the `users` table. -/
structure Account where
  username : String
  deposit_address : Option String
  credited_total : ℚ
  balance : ℚ
  last_faucet_ts : ℤ
  last_active_ts : ℤ
  created_ts : ℤ
deriving Repr, DecidableEq

/-- One row of the `transfers` table. -/
structure Transfer where
  kind : String
  from_tg : Option ℕ
  to_tg : Option ℕ
  amount : ℚ
  txid : Option String
  ts : ℤ
deriving Repr, DecidableEq

/-- The whole SQLite database. -/
structure DB where
  users : List (ℕ × Account)
  transfers : List Transfer
deriving Repr, DecidableEq

/-- Fresh database (CREATE TABLE IF NOT EXISTS on an empty file). -/
def DB.empty : DB := ⟨[], []⟩

/-- SELECT by primary key: first row whose key matches. -/
def lookupUser : List (ℕ × Account) → ℕ → Option Account
  | [], _ => none
  | (k, a) :: rest, i => if k = i then some a else lookupUser rest i

/-- UPDATE by primary key: rewrite the first row whose key matches. -/
def updateUser (f : Account → Account) : List (ℕ × Account) → ℕ → List (ℕ × Account)
  | [], _ => []
  | (k, a) :: rest, i =>
      if k = i then (k, f a) :: rest else (k, a) :: updateUser f rest i

/-- db_get_user. -/
def db_get_user (db : DB) (tg_id : ℕ) : Option Account :=
  lookupUser db.users tg_id

/-- db_upsert_user: UPDATE username and last_active_ts when the row exists,
INSERT a fresh row (schema defaults: balance 0, credited_total 0, NULL
deposit_address, last_faucet_ts 0) otherwise. -/
def db_upsert_user (db : DB) (tg_id : ℕ) (username : String) (t : ℤ) : DB :=
  match lookupUser db.users tg_id with
  | some _ =>
      { db with users :=
          (updateUser (fun a => { a with username := username, last_active_ts := t })
            db.users tg_id) }
  | none =>
      { db with users := db.users ++
          [(tg_id, { username := username, deposit_address := none,
                     credited_total := 0, balance := 0, last_faucet_ts := 0,
                     last_active_ts := t, created_ts := t })] }

/-- db_update_balance: UPDATE users SET balance=? WHERE tg_id=?. -/
def db_update_balance (db : DB) (tg_id : ℕ) (new_balance : ℚ) : DB :=
  { db with users := updateUser (fun a => { a with balance := new_balance }) db.users tg_id }

/-- db_add_transfer: INSERT INTO transfers. -/
def db_add_transfer (db : DB) (kind : String) (f_tg to_tg : Option ℕ)
    (amount : ℚ) (txid : Option String) (t : ℤ) : DB :=
  { db with transfers := db.transfers ++ [⟨kind, f_tg, to_tg, amount, txid, t⟩] }

/-- db_set_deposit_address: unconditional UPDATE of the address column. -/
def db_set_deposit_address (db : DB) (tg_id : ℕ) (addr : String) : DB :=
  { db with users := updateUser (fun a => { a with deposit_address := some addr }) db.users tg_id }

/-- db_set_credited_total. -/
def db_set_credited_total (db : DB) (tg_id : ℕ) (total : ℚ) : DB :=
  { db with users := updateUser (fun a => { a with credited_total := total }) db.users tg_id }

/-- db_set_last_faucet. -/
def db_set_last_faucet (db : DB) (tg_id : ℕ) (ts : ℤ) : DB :=
  { db with users := updateUser (fun a => { a with last_faucet_ts := ts }) db.users tg_id }

/-- db_set_active. -/
def db_set_active (db : DB) (tg_id : ℕ) (t : ℤ) : DB :=
  { db with users := updateUser (fun a => { a with last_active_ts := t }) db.users tg_id }

/-- get_or_create_deposit_address: return the stored address when one is set,
otherwise ask the wallet for a fresh one (oracle `newAddr`) and store it. -/
def get_or_create_deposit_address (db : DB) (tg_id : ℕ) (newAddr : String) :
    DB × String :=
  match db_get_user db tg_id with
  | some u =>
      match u.deposit_address with
      | some a => (db, a)
      | none => (db_set_deposit_address db tg_id newAddr, newAddr)
  | none => (db_set_deposit_address db tg_id newAddr, newAddr)

/-- Decimal(...).quantize(Decimal("0.00000001"), rounding=ROUND_DOWN):
floor to 8 decimal places. -/
def quantize8 (x : ℚ) : ℚ := (⌊x * 100000000⌋ : ℤ) / 100000000

/-- Outcome of cmd_withdraw (each constructor is one of the early returns or
the success reply). -/
inductive WithdrawResult
  | invalidAmount
  | insufficientBalance
  | feeTooHigh
  | rpcError
  | success (txid : String)
  | internalError
deriving Repr, DecidableEq

/-- cmd_withdraw for a parsed positive-syntax amount.  `sendF` is the
sendtoaddress oracle: `none` models an RPC exception.  The source order is:
upsert, amount validation, balance check, fee check, external send, debit,
transfer record. -/
def cmd_withdraw (db : DB) (uid : ℕ) (uname : String) (amount : ℚ)
    (address : String) (sendF : String → ℚ → Option String) (t : ℤ) :
    DB × WithdrawResult :=
  let db0 := db_upsert_user db uid uname t
  if amount ≤ 0 then (db0, .invalidAmount)
  else
    match db_get_user db0 uid with
    | none => (db0, .internalError)
    | some u =>
      if u.balance < amount then (db0, .insufficientBalance)
      else if amount - WITHDRAW_FEE ≤ 0 then (db0, .feeTooHigh)
      else
        match sendF address (amount - WITHDRAW_FEE) with
        | none => (db0, .rpcError)
        | some txid =>
          let db1 := db_update_balance db0 uid (u.balance - amount)
          let db2 := db_add_transfer db1 "withdraw" (some uid) none amount (some txid) t
          (db2, .success txid)

/-- The three parsed tip modes of parse_tip_args. -/
inductive TipMode
  | lucky
  | active
  | direct (uname : String)
deriving Repr, DecidableEq

/-- Outcome of cmd_tip. -/
inductive TipResult
  | noAccount
  | invalidAmount
  | insufficientBalance
  | targetNotFound
  | noActiveUsers
  | insufficientSplit
  | success
deriving Repr, DecidableEq

/-- The direct-mode recipient search: first user row with a nonempty
username equal (lowercased) to the requested one. -/
def findByUsername : List (ℕ × Account) → String → Option ℕ
  | [], _ => none
  | (k, a) :: rest, un =>
      if a.username ≠ "" ∧ a.username.toLower = un then some k
      else findByUsername rest un

/-- SELECT tg_id FROM users WHERE last_active_ts >= cutoff. -/
def activeIds (users : List (ℕ × Account)) (cutoff : ℤ) : List ℕ :=
  (users.filter (fun p => cutoff ≤ p.2.last_active_ts)).map Prod.fst

/-- One recipient credit of the tip loop: re-read the row, write the raised
balance, append one tip transfer.  A missing row is left untouched. -/
def creditRecipient (db : DB) (sender uid : ℕ) (share : ℚ) (t : ℤ) : DB :=
  match db_get_user db uid with
  | none => db
  | some u =>
      let db1 := db_update_balance db uid (u.balance + share)
      db_add_transfer db1 "tip" (some sender) (some uid) share none t

/-- cmd_tip after argument parsing.  `pick` drives random.choice in lucky
mode (reduced mod the candidate count). -/
def cmd_tip (db : DB) (sender_id : ℕ) (mode : TipMode) (amount : ℚ)
    (pick : ℕ) (t : ℤ) : DB × TipResult :=
  match db_get_user db sender_id with
  | none => (db, .noAccount)
  | some sender =>
    if amount ≤ 0 then (db, .invalidAmount)
    else if sender.balance < amount then (db, .insufficientBalance)
    else
      match mode with
      | .direct un =>
          match findByUsername db.users un.toLower with
          | none => (db, .targetNotFound)
          | some uid =>
              let db1 := db_update_balance db sender_id (sender.balance - amount)
              let db2 := creditRecipient db1 sender_id uid amount t
              (db_set_active db2 sender_id t, .success)
      | .active =>
          let recips := (activeIds db.users (t - ACTIVE_WINDOW)).filter
            (fun uid => uid ≠ sender_id)
          if recips = [] then (db, .noActiveUsers)
          else
            let share := quantize8 (amount / (recips.length : ℚ))
            let total := share * (recips.length : ℚ)
            if sender.balance < total then (db, .insufficientSplit)
            else
              let db1 := db_update_balance db sender_id (sender.balance - total)
              let db2 := recips.foldl
                (fun d uid => creditRecipient d sender_id uid share t) db1
              (db_set_active db2 sender_id t, .success)
      | .lucky =>
          let cands := (activeIds db.users (t - ACTIVE_WINDOW)).filter
            (fun uid => uid ≠ sender_id)
          if cands = [] then (db, .noActiveUsers)
          else
            let uid := cands.getD (pick % cands.length) 0
            let db1 := db_update_balance db sender_id (sender.balance - amount)
            let db2 := creditRecipient db1 sender_id uid amount t
            (db_set_active db2 sender_id t, .success)

/-- Outcome of cmd_faucet. -/
inductive FaucetResult
  | cooldown (remaining : ℤ)
  | success
  | internalError
deriving Repr, DecidableEq

/-- cmd_faucet: upsert, cooldown check (strict <, so the exact boundary
passes), credit, stamp, transfer record. -/
def cmd_faucet (db : DB) (uid : ℕ) (uname : String) (t : ℤ) : DB × FaucetResult :=
  let db0 := db_upsert_user db uid uname t
  match db_get_user db0 uid with
  | none => (db0, .internalError)
  | some u =>
    if t - u.last_faucet_ts < FAUCET_INTERVAL then
      (db0, .cooldown (FAUCET_INTERVAL - (t - u.last_faucet_ts)))
    else
      let db1 := db_update_balance db0 uid (u.balance + FAUCET_AMOUNT)
      let db2 := db_set_last_faucet db1 uid t
      (db_add_transfer db2 "faucet" none (some uid) FAUCET_AMOUNT none t, .success)

/-- One account step of scanner_loop: for a row with a deposit address,
compare the cumulative confirmed receipts `total_recv` against the
credited_total watermark and credit the positive difference. -/
def scan_account (db : DB) (uid : ℕ) (total_recv : ℚ) (t : ℤ) : DB :=
  match db_get_user db uid with
  | none => db
  | some u =>
    match u.deposit_address with
    | none => db
    | some _ =>
      if u.credited_total < total_recv then
        let diff := total_recv - u.credited_total
        let db1 := db_update_balance db uid (u.balance + diff)
        let db2 := db_set_credited_total db1 uid total_recv
        db_add_transfer db2 "deposit" none (some uid) diff none t
      else db

/-- The ledger-mutating operations reachable from the handlers and the
scanner, with oracle inputs inline. -/
inductive Op
  | upsert (uid : ℕ) (uname : String) (t : ℤ)
  | start (uid : ℕ) (uname : String) (newAddr : String) (t : ℤ)
  | scan (uid : ℕ) (total_recv : ℚ) (t : ℤ)
  | tip (sender : ℕ) (mode : TipMode) (amount : ℚ) (pick : ℕ) (t : ℤ)
  | withdraw (uid : ℕ) (uname : String) (amount : ℚ) (address : String)
      (sendF : String → ℚ → Option String) (t : ℤ)
  | faucet (uid : ℕ) (uname : String) (t : ℤ)

/-- State transition of one operation. -/
def applyOp (db : DB) : Op → DB
  | .upsert uid un t => db_upsert_user db uid un t
  | .start uid un addr t =>
      (get_or_create_deposit_address (db_upsert_user db uid un t) uid addr).1
  | .scan uid v t => scan_account db uid v t
  | .tip s mode a pick t => (cmd_tip db s mode a pick t).1
  | .withdraw uid un a addr f t => (cmd_withdraw db uid un a addr f t).1
  | .faucet uid un t => (cmd_faucet db uid un t).1

/-- Run a sequence of operations from the empty database. -/
def runOps (ops : List Op) : DB := ops.foldl applyOp DB.empty

/-- Sum of all user balances. -/
def sumBalances (db : DB) : ℚ := (db.users.map (fun p => p.2.balance)).sum

/-- Sum of the recorded amounts of all transfers of one kind. -/
def sumKind (db : DB) (k : String) : ℚ :=
  ((db.transfers.filter (fun tr => tr.kind = k)).map (fun tr => tr.amount)).sum

/-- Number of recorded transfers of one kind. -/
def countKind (db : DB) (k : String) : ℕ :=
  (db.transfers.filter (fun tr => tr.kind = k)).length

/-- Total withdrawal fees charged: one WITHDRAW_FEE per recorded withdrawal. -/
def sumFees (db : DB) : ℚ := WITHDRAW_FEE * (countKind db "withdraw" : ℚ)

/-- Conservation as the code keeps it: recorded withdrawal amounts are gross
(fee included), so the balance total is deposits plus faucet payouts minus
the recorded withdrawal amounts. -/
def Conserved (db : DB) : Prop :=
  sumBalances db = sumKind db "deposit" + sumKind db "faucet" - sumKind db "withdraw"

/-- Every stored balance is nonnegative. -/
def NonnegBalances (db : DB) : Prop :=
  ∀ p ∈ db.users, 0 ≤ (p : ℕ × Account).2.balance

/-- Sum of balances of a raw user list. -/
def sumBal (l : List (ℕ × Account)) : ℚ := (l.map (fun p => p.2.balance)).sum

/- ## Concrete runs used as test inputs -/

/-- Sequence: create account 1 with address, deposit 10, withdraw 2 (send ok). -/
def seqC1 : List Op :=
  [.start 1 "alice" "addrA" 0, .scan 1 10 0,
   .withdraw 1 "alice" 2 "dst" (fun _ _ => some "t1") 0]

/-- Fresh account for user id 1, name "a", created at time 0. -/
def accC2 : Account :=
  { username := "a", deposit_address := none, credited_total := 0, balance := 0,
    last_faucet_ts := 0, last_active_ts := 0, created_ts := 0 }

/-- Account with a deposit address, watermark 3 and balance 2. -/
def accC3 : Account :=
  { username := "a", deposit_address := some "A", credited_total := 3, balance := 2,
    last_faucet_ts := 0, last_active_ts := 0, created_ts := 0 }

/-- One-user database around accC3. -/
def dbC3 : DB := ⟨[(1, accC3)], []⟩

/-- Account with balance 10 and no deposit address. -/
def accC4 : Account :=
  { username := "b", deposit_address := none, credited_total := 0, balance := 10,
    last_faucet_ts := 0, last_active_ts := 0, created_ts := 0 }

/-- One-user database around accC4. -/
def dbC4 : DB := ⟨[(1, accC4)], []⟩

/-- Account with balance 10 for the successful-withdraw run. -/
def accC5 : Account :=
  { username := "b", deposit_address := none, credited_total := 0, balance := 10,
    last_faucet_ts := 0, last_active_ts := 0, created_ts := 0 }

/-- One-user database around accC5. -/
def dbC5 : DB := ⟨[(1, accC5)], []⟩

/-- One-user database whose only account has balance 0. -/
def dbC6 : DB := ⟨[(1, accC2)], []⟩

/-- The split-tip recipient list computed inside cmd_tip: active accounts
excluding the sender. -/
def tipRecips (db : DB) (s : ℕ) (t : ℤ) : List ℕ :=
  (activeIds db.users (t - ACTIVE_WINDOW)).filter (fun uid => uid ≠ s)

/-- The per-recipient share computed inside cmd_tip: amount over the recipient
count, floored to 8 decimals. -/
def tipShare (db : DB) (s : ℕ) (t : ℤ) (amount : ℚ) : ℚ :=
  quantize8 (amount / ((tipRecips db s t).length : ℚ))

/-- Split-tip sender: balance 2, active at time 0. -/
def accSendC7 : Account :=
  { username := "s", deposit_address := none, credited_total := 0, balance := 2,
    last_faucet_ts := 0, last_active_ts := 0, created_ts := 0 }

/-- Split-tip recipient with the given name: balance 0, active at time 0. -/
def accRecC7 (un : String) : Account :=
  { username := un, deposit_address := none, credited_total := 0, balance := 0,
    last_faucet_ts := 0, last_active_ts := 0, created_ts := 0 }

/-- Four-user database: sender 1 and three active recipients 2, 3, 4. -/
def dbC7 : DB :=
  ⟨[(1, accSendC7), (2, accRecC7 "u2"), (3, accRecC7 "u3"), (4, accRecC7 "u4")], []⟩

/-- Account with balance 1 whose last faucet claim was at time 0. -/
def accC8 : Account :=
  { username := "c", deposit_address := none, credited_total := 0, balance := 1,
    last_faucet_ts := 0, last_active_ts := 0, created_ts := 0 }

/-- One-user database around accC8. -/
def dbC8 : DB := ⟨[(1, accC8)], []⟩

/-- Account named alice, last active at time 0. -/
def accC9 : Account :=
  { username := "alice", deposit_address := none, credited_total := 0, balance := 0,
    last_faucet_ts := 0, last_active_ts := 0, created_ts := 0 }

/-- One-user database around accC9. -/
def dbC9 : DB := ⟨[(1, accC9)], []⟩

/-- Account whose deposit address is already assigned to A. -/
def accC10 : Account :=
  { username := "d", deposit_address := some "A", credited_total := 0, balance := 0,
    last_faucet_ts := 0, last_active_ts := 0, created_ts := 0 }

/-- One-user database around accC10. -/
def dbC10 : DB := ⟨[(1, accC10)], []⟩

/- ## Association-list lemmas -/

theorem lookupUser_mem {l : List (ℕ × Account)} {i : ℕ} {a : Account}
    (h : lookupUser l i = some a) : (i, a) ∈ l := by
  induction l with
  | nil => simp [lookupUser] at h
  | cons p rest ih =>
      obtain ⟨k, b⟩ := p
      by_cases hk : k = i
      · subst hk
        simp [lookupUser] at h
        subst h
        exact List.mem_cons_self _ _
      · simp [lookupUser, hk] at h
        exact List.mem_cons_of_mem _ (ih h)

theorem mem_keys_of_lookup {l : List (ℕ × Account)} {i : ℕ} {a : Account}
    (h : lookupUser l i = some a) : i ∈ l.map Prod.fst := by
  have := lookupUser_mem h
  exact List.mem_map.mpr ⟨(i, a), this, rfl⟩

theorem lookup_isSome_of_mem_keys {l : List (ℕ × Account)} {i : ℕ}
    (h : i ∈ l.map Prod.fst) : ∃ a, lookupUser l i = some a := by
  induction l with
  | nil => simp at h
  | cons p rest ih =>
      obtain ⟨k, b⟩ := p
      by_cases hk : k = i
      · exact ⟨b, by simp [lookupUser, hk]⟩
      · have h2 : i ∈ rest.map Prod.fst := by
          simp at h
          rcases h with h | ⟨x, hx⟩
          · exact absurd h.symm hk
          · exact List.mem_map.mpr ⟨(i, x), hx, rfl⟩
        obtain ⟨a, ha⟩ := ih h2
        exact ⟨a, by simp [lookupUser, hk, ha]⟩

theorem keys_updateUser (f : Account → Account) (l : List (ℕ × Account)) (i : ℕ) :
    (updateUser f l i).map Prod.fst = l.map Prod.fst := by
  induction l with
  | nil => rfl
  | cons p rest ih =>
      obtain ⟨k, b⟩ := p
      by_cases hk : k = i
      · simp [updateUser, hk]
      · simp [updateUser, hk, ih]

theorem lookupUser_updateUser_self (f : Account → Account) (l : List (ℕ × Account)) (i : ℕ) :
    lookupUser (updateUser f l i) i = (lookupUser l i).map f := by
  induction l with
  | nil => rfl
  | cons p rest ih =>
      obtain ⟨k, b⟩ := p
      by_cases hk : k = i
      · simp [updateUser, lookupUser, hk]
      · simp [updateUser, lookupUser, hk, ih]

theorem lookupUser_updateUser_ne (f : Account → Account) (l : List (ℕ × Account))
    {i j : ℕ} (h : j ≠ i) : lookupUser (updateUser f l i) j = lookupUser l j := by
  induction l with
  | nil => rfl
  | cons p rest ih =>
      obtain ⟨k, b⟩ := p
      by_cases hk : k = i
      · have hkj : ¬ (k = j) := fun hc => h (hc ▸ hk)
        simp [updateUser, lookupUser, hk, hkj, Ne.symm h]
      · by_cases hj : k = j
        · simp [updateUser, lookupUser, hk, hj, h]
        · simp [updateUser, lookupUser, hk, hj, ih]

theorem lookupUser_append_left {l m : List (ℕ × Account)} {j : ℕ} {a : Account}
    (h : lookupUser l j = some a) : lookupUser (l ++ m) j = some a := by
  induction l with
  | nil => simp [lookupUser] at h
  | cons p rest ih =>
      obtain ⟨k, b⟩ := p
      by_cases hk : k = j
      · simp [lookupUser, hk] at h ⊢
        exact h
      · simp [lookupUser, hk] at h ⊢
        exact ih h

theorem lookupUser_append_of_none {l m : List (ℕ × Account)} {j : ℕ}
    (h : lookupUser l j = none) : lookupUser (l ++ m) j = lookupUser m j := by
  induction l with
  | nil => rfl
  | cons p rest ih =>
      obtain ⟨k, b⟩ := p
      by_cases hk : k = j
      · simp [lookupUser, hk] at h
      · simp [lookupUser, hk] at h ⊢
        exact ih h

theorem sumBal_append (l m : List (ℕ × Account)) :
    sumBal (l ++ m) = sumBal l + sumBal m := by
  simp [sumBal]

theorem sumBal_updateUser (f : Account → Account) {l : List (ℕ × Account)} {i : ℕ}
    {a : Account} (h : lookupUser l i = some a) :
    sumBal (updateUser f l i) = sumBal l - a.balance + (f a).balance := by
  induction l with
  | nil => simp [lookupUser] at h
  | cons p rest ih =>
      obtain ⟨k, b⟩ := p
      by_cases hk : k = i
      · simp [lookupUser, hk] at h
        subst h
        simp [updateUser, hk, sumBal]
        ring

      · simp [lookupUser, hk] at h
        simp [updateUser, hk, sumBal] at ih ⊢
        rw [ih h]
        ring

theorem sumBal_updateUser_of_balance_eq (f : Account → Account)
    (hf : ∀ a, (f a).balance = a.balance) (l : List (ℕ × Account)) (i : ℕ) :
    sumBal (updateUser f l i) = sumBal l := by
  induction l with
  | nil => rfl
  | cons p rest ih =>
      obtain ⟨k, b⟩ := p
      by_cases hk : k = i
      · simp [updateUser, hk, sumBal, hf]
      · simp [updateUser, hk, sumBal] at ih ⊢
        rw [ih]

theorem nonneg_updateUser {l : List (ℕ × Account)} (f : Account → Account) (i : ℕ)
    (hf : ∀ a, 0 ≤ a.balance → 0 ≤ (f a).balance)
    (h : ∀ p ∈ l, 0 ≤ (p : ℕ × Account).2.balance) :
    ∀ p ∈ updateUser f l i, 0 ≤ (p : ℕ × Account).2.balance := by
  induction l with
  | nil => intro p hp; simp [updateUser] at hp
  | cons q rest ih =>
      obtain ⟨k, b⟩ := q
      intro p hp
      by_cases hk : k = i
      · simp [updateUser, hk] at hp
        rcases hp with hp | hp
        · subst hp
          exact hf b (h (k, b) (List.mem_cons_self _ _))
        · exact h p (List.mem_cons_of_mem _ hp)
      · simp [updateUser, hk] at hp
        rcases hp with hp | hp
        · subst hp
          exact h (k, b) (List.mem_cons_self _ _)
        · exact ih (fun q hq => h q (List.mem_cons_of_mem _ hq)) p hp

/- ## Effect lemmas of the storage writers -/

theorem sumBalances_eq (db : DB) : sumBalances db = sumBal db.users := rfl

theorem transfers_db_update_balance (db : DB) (i : ℕ) (v : ℚ) :
    (db_update_balance db i v).transfers = db.transfers := rfl

theorem transfers_db_set_credited_total (db : DB) (i : ℕ) (v : ℚ) :
    (db_set_credited_total db i v).transfers = db.transfers := rfl

theorem transfers_db_set_last_faucet (db : DB) (i : ℕ) (v : ℤ) :
    (db_set_last_faucet db i v).transfers = db.transfers := rfl

theorem transfers_db_set_active (db : DB) (i : ℕ) (t : ℤ) :
    (db_set_active db i t).transfers = db.transfers := rfl

theorem transfers_db_set_deposit_address (db : DB) (i : ℕ) (addr : String) :
    (db_set_deposit_address db i addr).transfers = db.transfers := rfl

theorem transfers_db_upsert_user (db : DB) (i : ℕ) (un : String) (t : ℤ) :
    (db_upsert_user db i un t).transfers = db.transfers := by
  unfold db_upsert_user
  cases lookupUser db.users i <;> rfl

theorem users_db_add_transfer (db : DB) (k : String) (f_tg to_tg : Option ℕ)
    (a : ℚ) (x : Option String) (ts : ℤ) :
    (db_add_transfer db k f_tg to_tg a x ts).users = db.users := rfl

theorem sumKind_congr {db1 db2 : DB} (h : db1.transfers = db2.transfers) (k : String) :
    sumKind db1 k = sumKind db2 k := by
  simp [sumKind, h]

theorem sumKind_db_add_transfer (db : DB) (k1 k : String) (f_tg to_tg : Option ℕ)
    (a : ℚ) (x : Option String) (ts : ℤ) :
    sumKind (db_add_transfer db k1 f_tg to_tg a x ts) k =
      sumKind db k + (if k1 = k then a else 0) := by
  by_cases h : k1 = k <;>
    simp [sumKind, db_add_transfer, List.filter_append, List.filter, h]

theorem sumBalances_db_add_transfer (db : DB) (k : String) (f_tg to_tg : Option ℕ)
    (a : ℚ) (x : Option String) (ts : ℤ) :
    sumBalances (db_add_transfer db k f_tg to_tg a x ts) = sumBalances db := rfl

theorem sumBalances_db_update_balance {db : DB} {i : ℕ} {u : Account}
    (h : db_get_user db i = some u) (v : ℚ) :
    sumBalances (db_update_balance db i v) = sumBalances db - u.balance + v := by
  have := sumBal_updateUser (fun a => { a with balance := v }) h
  simpa [sumBalances_eq, db_update_balance] using this

theorem sumBalances_db_set_credited_total (db : DB) (i : ℕ) (v : ℚ) :
    sumBalances (db_set_credited_total db i v) = sumBalances db := by
  simpa [sumBalances_eq, db_set_credited_total] using
    sumBal_updateUser_of_balance_eq (fun a => { a with credited_total := v })
      (fun a => rfl) db.users i

theorem sumBalances_db_set_last_faucet (db : DB) (i : ℕ) (v : ℤ) :
    sumBalances (db_set_last_faucet db i v) = sumBalances db := by
  simpa [sumBalances_eq, db_set_last_faucet] using
    sumBal_updateUser_of_balance_eq (fun a => { a with last_faucet_ts := v })
      (fun a => rfl) db.users i

theorem sumBalances_db_set_active (db : DB) (i : ℕ) (t : ℤ) :
    sumBalances (db_set_active db i t) = sumBalances db := by
  simpa [sumBalances_eq, db_set_active] using
    sumBal_updateUser_of_balance_eq (fun a => { a with last_active_ts := t })
      (fun a => rfl) db.users i

theorem sumBalances_db_set_deposit_address (db : DB) (i : ℕ) (addr : String) :
    sumBalances (db_set_deposit_address db i addr) = sumBalances db := by
  simpa [sumBalances_eq, db_set_deposit_address] using
    sumBal_updateUser_of_balance_eq (fun a => { a with deposit_address := some addr })
      (fun a => rfl) db.users i

theorem sumBalances_db_upsert_user (db : DB) (i : ℕ) (un : String) (t : ℤ) :
    sumBalances (db_upsert_user db i un t) = sumBalances db := by
  unfold db_upsert_user
  cases h : lookupUser db.users i with
  | some u =>
      simpa [sumBalances_eq] using
        sumBal_updateUser_of_balance_eq
          (fun a => { a with username := un, last_active_ts := t }) (fun a => rfl) db.users i
  | none =>
      simp [sumBalances_eq, sumBal_append, sumBal]

theorem keys_db_upsert_user (db : DB) (i : ℕ) (un : String) (t : ℤ) :
    (db_upsert_user db i un t).users.map Prod.fst = db.users.map Prod.fst ∨
      (db_upsert_user db i un t).users.map Prod.fst = db.users.map Prod.fst ++ [i] := by
  unfold db_upsert_user
  cases h : lookupUser db.users i with
  | some u => exact Or.inl (by simp [keys_updateUser])
  | none => exact Or.inr (by simp)

/- ## quantize8 -/

theorem quantize8_nonneg {x : ℚ} (h : 0 ≤ x) : 0 ≤ quantize8 x := by
  unfold quantize8
  have h1 : (0:ℚ) ≤ x * 100000000 := by positivity
  have h2 : (0:ℤ) ≤ ⌊x * 100000000⌋ := Int.floor_nonneg.mpr h1
  have h3 : (0:ℚ) ≤ (⌊x * 100000000⌋ : ℚ) := by exact_mod_cast h2
  have h4 : (0:ℚ) < 100000000 := by norm_num
  exact div_nonneg h3 (le_of_lt h4)

theorem quantize8_le (x : ℚ) : quantize8 x ≤ x := by
  unfold quantize8
  rw [div_le_iff₀ (by norm_num : (0:ℚ) < 100000000)]
  exact Int.floor_le _

/- ## creditRecipient and the split-tip loop -/

theorem creditRecipient_keys (db : DB) (s uid : ℕ) (sh : ℚ) (t : ℤ) :
    (creditRecipient db s uid sh t).users.map Prod.fst = db.users.map Prod.fst := by
  unfold creditRecipient
  cases h : db_get_user db uid with
  | none => rfl
  | some u => simp [db_add_transfer, db_update_balance, keys_updateUser]

theorem creditRecipient_sumBalances {db : DB} {uid : ℕ} (s : ℕ) (sh : ℚ) (t : ℤ)
    (h : uid ∈ db.users.map Prod.fst) :
    sumBalances (creditRecipient db s uid sh t) = sumBalances db + sh := by
  obtain ⟨u, hu⟩ := lookup_isSome_of_mem_keys h
  unfold creditRecipient
  rw [show db_get_user db uid = some u from hu]
  rw [sumBalances_db_add_transfer, sumBalances_db_update_balance hu]
  ring

theorem creditRecipient_sumKind {k : String} (db : DB) (s uid : ℕ) (sh : ℚ) (t : ℤ)
    (hk : k ≠ "tip") :
    sumKind (creditRecipient db s uid sh t) k = sumKind db k := by
  unfold creditRecipient
  cases h : db_get_user db uid with
  | none => rfl
  | some u =>
      rw [sumKind_db_add_transfer]
      have : ¬ ("tip" = k) := fun hc => hk hc.symm
      rw [if_neg this]
      simpa using sumKind_congr (transfers_db_update_balance db uid (u.balance + sh)) k

theorem creditRecipient_nonneg {db : DB} {sh : ℚ} (s uid : ℕ) (t : ℤ)
    (h : NonnegBalances db) (hsh : 0 ≤ sh) :
    NonnegBalances (creditRecipient db s uid sh t) := by
  unfold creditRecipient
  cases hu : db_get_user db uid with
  | none => exact h
  | some u =>
      have hub : 0 ≤ u.balance := h (uid, u) (lookupUser_mem hu)
      intro p hp
      refine nonneg_updateUser (fun a => { a with balance := u.balance + sh }) uid
        (fun a _ => by positivity) h p ?_
      simpa [db_add_transfer, db_update_balance] using hp

theorem foldl_credit_keys (s : ℕ) (sh : ℚ) (t : ℤ) :
    ∀ (recips : List ℕ) (db : DB),
      ((recips.foldl (fun d uid => creditRecipient d s uid sh t) db).users).map Prod.fst =
        db.users.map Prod.fst := by
  intro recips
  induction recips with
  | nil => intro db; rfl
  | cons r rest ih =>
      intro db
      simp only [List.foldl_cons]
      rw [ih, creditRecipient_keys]

theorem foldl_credit_sumBalances (s : ℕ) (sh : ℚ) (t : ℤ) :
    ∀ (recips : List ℕ) (db : DB),
      (∀ uid ∈ recips, uid ∈ db.users.map Prod.fst) →
      sumBalances (recips.foldl (fun d uid => creditRecipient d s uid sh t) db) =
        sumBalances db + sh * recips.length := by
  intro recips
  induction recips with
  | nil => intro db _; simp
  | cons r rest ih =>
      intro db h
      simp only [List.foldl_cons]
      rw [ih _ ?hrest]
      case hrest =>
        intro uid hu
        rw [creditRecipient_keys]
        exact h uid (List.mem_cons_of_mem _ hu)
      rw [creditRecipient_sumBalances s sh t (h r (List.mem_cons_self _ _))]
      simp only [List.length_cons]
      push_cast
      ring

theorem foldl_credit_sumKind {k : String} (s : ℕ) (sh : ℚ) (t : ℤ) (hk : k ≠ "tip") :
    ∀ (recips : List ℕ) (db : DB),
      sumKind (recips.foldl (fun d uid => creditRecipient d s uid sh t) db) k =
        sumKind db k := by
  intro recips
  induction recips with
  | nil => intro db; rfl
  | cons r rest ih =>
      intro db
      simp only [List.foldl_cons]
      rw [ih, creditRecipient_sumKind _ _ _ _ _ hk]

theorem foldl_credit_nonneg {sh : ℚ} (s : ℕ) (t : ℤ) (hsh : 0 ≤ sh) :
    ∀ (recips : List ℕ) (db : DB), NonnegBalances db →
      NonnegBalances (recips.foldl (fun d uid => creditRecipient d s uid sh t) db) := by
  intro recips
  induction recips with
  | nil => intro db h; exact h
  | cons r rest ih =>
      intro db h
      simp only [List.foldl_cons]
      exact ih _ (creditRecipient_nonneg s r t h hsh)

/- ## Recipient selection lemmas -/

theorem findByUsername_mem : ∀ {l : List (ℕ × Account)} {un : String} {k : ℕ},
    findByUsername l un = some k → k ∈ l.map Prod.fst := by
  intro l
  induction l with
  | nil => intro un k h; simp [findByUsername] at h
  | cons p rest ih =>
      intro un k h
      obtain ⟨j, b⟩ := p
      by_cases hcond : b.username ≠ "" ∧ b.username.toLower = un
      · simp [findByUsername, hcond] at h
        simp [h]
      · simp [findByUsername, hcond] at h
        simp [ih h]

theorem activeIds_sub {l : List (ℕ × Account)} {c : ℤ} :
    ∀ x ∈ activeIds l c, x ∈ l.map Prod.fst := by
  intro x hx
  simp only [activeIds, List.mem_map] at hx
  obtain ⟨p, hp, hfst⟩ := hx
  exact List.mem_map.mpr ⟨p, List.mem_of_mem_filter hp, hfst⟩

theorem getD_mod_mem {l : List ℕ} (h : l ≠ []) (p : ℕ) :
    l.getD (p % l.length) 0 ∈ l := by
  have hlen : 0 < l.length := List.length_pos.mpr h
  have hlt : p % l.length < l.length := Nat.mod_lt _ hlen
  rw [List.getD_eq_getElem l 0 hlt]
  exact List.getElem_mem hlt

theorem keys_db_update_balance (db : DB) (i : ℕ) (v : ℚ) :
    (db_update_balance db i v).users.map Prod.fst = db.users.map Prod.fst := by
  simp [db_update_balance, keys_updateUser]

/- ## Conservation, operation by operation -/

theorem conserved_of {db1 db2 : DB} (h1 : sumBalances db2 = sumBalances db1)
    (hdep : sumKind db2 "deposit" = sumKind db1 "deposit")
    (hfau : sumKind db2 "faucet" = sumKind db1 "faucet")
    (hwit : sumKind db2 "withdraw" = sumKind db1 "withdraw")
    (h : Conserved db1) : Conserved db2 := by
  unfold Conserved at *
  rw [h1, hdep, hfau, hwit]
  exact h

theorem conserved_db_upsert_user {db : DB} (i : ℕ) (un : String) (t : ℤ)
    (h : Conserved db) : Conserved (db_upsert_user db i un t) := by
  refine conserved_of (sumBalances_db_upsert_user db i un t) ?_ ?_ ?_ h <;>
    exact sumKind_congr (transfers_db_upsert_user db i un t) _

theorem conserved_scan_account {db : DB} (uid : ℕ) (v : ℚ) (t : ℤ)
    (h : Conserved db) : Conserved (scan_account db uid v t) := by
  unfold scan_account
  cases hu : db_get_user db uid with
  | none => simpa using h
  | some u =>
      cases haddr : u.deposit_address with
      | none => simpa [haddr] using h
      | some addr =>
          by_cases hcr : u.credited_total < v
          · simp only [haddr, hcr, if_true]
            unfold Conserved
            rw [sumKind_db_add_transfer, sumKind_db_add_transfer, sumKind_db_add_transfer]
            have h2 : ∀ k, sumKind (db_set_credited_total (db_update_balance db uid
                (u.balance + (v - u.credited_total))) uid v) k =
                sumKind db k := by
              intro k
              exact sumKind_congr (by simp [db_set_credited_total, db_update_balance]) k
            rw [h2, h2, h2]
            rw [sumBalances_db_add_transfer, sumBalances_db_set_credited_total,
              sumBalances_db_update_balance hu]
            unfold Conserved at h
            simp only [if_pos rfl, show ¬("deposit" = "faucet") by decide,
              show ¬("deposit" = "withdraw") by decide, if_neg, if_false]
            rw [h]
            norm_num
            ring
          · simpa [haddr, hcr] using h

theorem conserved_db_set_deposit_address {db : DB} (i : ℕ) (addr : String)
    (h : Conserved db) : Conserved (db_set_deposit_address db i addr) := by
  refine conserved_of (sumBalances_db_set_deposit_address db i addr) ?_ ?_ ?_ h <;>
    exact sumKind_congr (transfers_db_set_deposit_address db i addr) _

theorem conserved_get_or_create {db : DB} (uid : ℕ) (addr : String)
    (h : Conserved db) : Conserved (get_or_create_deposit_address db uid addr).1 := by
  unfold get_or_create_deposit_address
  cases hu : db_get_user db uid with
  | none => simpa using conserved_db_set_deposit_address uid addr h
  | some u =>
      cases ha : u.deposit_address with
      | some a => simpa [ha] using h
      | none => simpa [ha] using conserved_db_set_deposit_address uid addr h

theorem conserved_cmd_withdraw {db : DB} (uid : ℕ) (un : String) (amount : ℚ)
    (addr : String) (sendF : String → ℚ → Option String) (t : ℤ)
    (h : Conserved db) : Conserved (cmd_withdraw db uid un amount addr sendF t).1 := by
  unfold cmd_withdraw
  simp only []
  have h0 : Conserved (db_upsert_user db uid un t) := conserved_db_upsert_user uid un t h
  by_cases h1 : amount ≤ 0
  · simpa [h1] using h0
  · rw [if_neg h1]
    cases hu : db_get_user (db_upsert_user db uid un t) uid with
    | none => simpa using h0
    | some u =>
        simp only []
        by_cases h2 : u.balance < amount
        · simpa [h2] using h0
        · rw [if_neg h2]
          by_cases h3 : amount - WITHDRAW_FEE ≤ 0
          · simpa [h3] using h0
          · rw [if_neg h3]
            cases hs : sendF addr (amount - WITHDRAW_FEE) with
            | none => simpa using h0
            | some txid =>
                show Conserved (db_add_transfer (db_update_balance
                  (db_upsert_user db uid un t) uid (u.balance - amount))
                  "withdraw" (some uid) none amount (some txid) t)
                unfold Conserved
                rw [sumKind_db_add_transfer, sumKind_db_add_transfer,
                  sumKind_db_add_transfer, sumBalances_db_add_transfer,
                  sumBalances_db_update_balance hu]
                have hk : ∀ k, sumKind (db_update_balance (db_upsert_user db uid un t)
                    uid (u.balance - amount)) k = sumKind (db_upsert_user db uid un t) k :=
                  fun k => sumKind_congr (transfers_db_update_balance _ _ _) k
                rw [hk, hk, hk]
                unfold Conserved at h0
                rw [h0]
                simp
                try ring

theorem conserved_cmd_faucet {db : DB} (uid : ℕ) (un : String) (t : ℤ)
    (h : Conserved db) : Conserved (cmd_faucet db uid un t).1 := by
  unfold cmd_faucet
  simp only []
  have h0 : Conserved (db_upsert_user db uid un t) := conserved_db_upsert_user uid un t h
  cases hu : db_get_user (db_upsert_user db uid un t) uid with
  | none => simpa using h0
  | some u =>
      simp only []
      by_cases hc : t - u.last_faucet_ts < FAUCET_INTERVAL
      · simpa [hc] using h0
      · rw [if_neg hc]
        show Conserved (db_add_transfer (db_set_last_faucet (db_update_balance
          (db_upsert_user db uid un t) uid (u.balance + FAUCET_AMOUNT)) uid t)
          "faucet" none (some uid) FAUCET_AMOUNT none t)
        unfold Conserved
        rw [sumKind_db_add_transfer, sumKind_db_add_transfer, sumKind_db_add_transfer,
          sumBalances_db_add_transfer, sumBalances_db_set_last_faucet,
          sumBalances_db_update_balance hu]
        have hk : ∀ k, sumKind (db_set_last_faucet (db_update_balance
            (db_upsert_user db uid un t) uid (u.balance + FAUCET_AMOUNT)) uid t) k =
            sumKind (db_upsert_user db uid un t) k :=
          fun k => sumKind_congr (by simp [db_set_last_faucet, db_update_balance]) k
        rw [hk, hk, hk]
        unfold Conserved at h0
        rw [h0]
        simp
        try ring

theorem conserved_cmd_tip {db : DB} (s : ℕ) (mode : TipMode) (amount : ℚ)
    (pick : ℕ) (t : ℤ) (h : Conserved db) :
    Conserved (cmd_tip db s mode amount pick t).1 := by
  unfold cmd_tip
  cases hs : db_get_user db s with
  | none => simpa using h
  | some sender =>
      simp only []
      by_cases h1 : amount ≤ 0
      · simpa [h1] using h
      · rw [if_neg h1]
        by_cases h2 : sender.balance < amount
        · simpa [h2] using h
        · rw [if_neg h2]
          cases mode with
          | direct un =>
              simp only []
              cases hf : findByUsername db.users un.toLower with
              | none => simpa using h
              | some uid =>
                  show Conserved (db_set_active (creditRecipient
                    (db_update_balance db s (sender.balance - amount)) s uid amount t) s t)
                  have hmem : uid ∈ (db_update_balance db s
                      (sender.balance - amount)).users.map Prod.fst := by
                    rw [keys_db_update_balance]
                    exact findByUsername_mem hf
                  refine conserved_of (sumBalances_db_set_active _ _ _) ?_ ?_ ?_ ?_ <;>
                    try exact sumKind_congr (transfers_db_set_active _ _ _) _
                  unfold Conserved
                  rw [creditRecipient_sumBalances s amount t hmem,
                    creditRecipient_sumKind _ _ _ _ _ (by decide),
                    creditRecipient_sumKind _ _ _ _ _ (by decide),
                    creditRecipient_sumKind _ _ _ _ _ (by decide),
                    sumBalances_db_update_balance hs]
                  have hk : ∀ k, sumKind (db_update_balance db s
                      (sender.balance - amount)) k = sumKind db k :=
                    fun k => sumKind_congr (transfers_db_update_balance _ _ _) k
                  rw [hk, hk, hk]
                  unfold Conserved at h
                  rw [h]
                  ring
          | active =>
              simp only []
              by_cases hr : (activeIds db.users (t - ACTIVE_WINDOW)).filter
                  (fun uid => uid ≠ s) = []
              · rw [if_pos hr]
                simpa using h
              · rw [if_neg hr]
                by_cases h3 : sender.balance <
                    quantize8 (amount / (((activeIds db.users (t - ACTIVE_WINDOW)).filter
                      (fun uid => uid ≠ s)).length : ℚ)) *
                      (((activeIds db.users (t - ACTIVE_WINDOW)).filter
                        (fun uid => uid ≠ s)).length : ℚ)
                · rw [if_pos h3]
                  simpa using h
                · rw [if_neg h3]
                  show Conserved (db_set_active (((activeIds db.users (t - ACTIVE_WINDOW)).filter
                    (fun uid => uid ≠ s)).foldl (fun d uid => creditRecipient d s uid
                      (quantize8 (amount / (((activeIds db.users (t - ACTIVE_WINDOW)).filter
                        (fun uid => uid ≠ s)).length : ℚ))) t)
                    (db_update_balance db s (sender.balance -
                      quantize8 (amount / (((activeIds db.users (t - ACTIVE_WINDOW)).filter
                        (fun uid => uid ≠ s)).length : ℚ)) *
                        (((activeIds db.users (t - ACTIVE_WINDOW)).filter
                          (fun uid => uid ≠ s)).length : ℚ)))) s t)
                  have hmem : ∀ uid ∈ (activeIds db.users (t - ACTIVE_WINDOW)).filter
                      (fun uid => uid ≠ s),
                      uid ∈ (db_update_balance db s (sender.balance -
                        quantize8 (amount / (((activeIds db.users (t - ACTIVE_WINDOW)).filter
                          (fun uid => uid ≠ s)).length : ℚ)) *
                          (((activeIds db.users (t - ACTIVE_WINDOW)).filter
                            (fun uid => uid ≠ s)).length : ℚ))).users.map Prod.fst := by
                    intro uid hu
                    rw [keys_db_update_balance]
                    exact activeIds_sub uid (List.mem_of_mem_filter hu)
                  refine conserved_of (sumBalances_db_set_active _ _ _) ?_ ?_ ?_ ?_ <;>
                    try exact sumKind_congr (transfers_db_set_active _ _ _) _
                  unfold Conserved
                  rw [foldl_credit_sumBalances _ _ _ _ _ hmem,
                    foldl_credit_sumKind _ _ _ (by decide),
                    foldl_credit_sumKind _ _ _ (by decide),
                    foldl_credit_sumKind _ _ _ (by decide),
                    sumBalances_db_update_balance hs]
                  have hk : ∀ k, sumKind (db_update_balance db s (sender.balance -
                      quantize8 (amount / (((activeIds db.users (t - ACTIVE_WINDOW)).filter
                        (fun uid => uid ≠ s)).length : ℚ)) *
                        (((activeIds db.users (t - ACTIVE_WINDOW)).filter
                          (fun uid => uid ≠ s)).length : ℚ))) k = sumKind db k :=
                    fun k => sumKind_congr (transfers_db_update_balance _ _ _) k
                  rw [hk, hk, hk]
                  unfold Conserved at h
                  rw [h]
                  ring
          | lucky =>
              simp only []
              by_cases hr : (activeIds db.users (t - ACTIVE_WINDOW)).filter
                  (fun uid => uid ≠ s) = []
              · rw [if_pos hr]
                simpa using h
              · rw [if_neg hr]
                show Conserved (db_set_active (creditRecipient
                  (db_update_balance db s (sender.balance - amount)) s
                  (((activeIds db.users (t - ACTIVE_WINDOW)).filter
                    (fun uid => uid ≠ s)).getD (pick % ((activeIds db.users
                      (t - ACTIVE_WINDOW)).filter (fun uid => uid ≠ s)).length) 0)
                  amount t) s t)
                have hmem : (((activeIds db.users (t - ACTIVE_WINDOW)).filter
                    (fun uid => uid ≠ s)).getD (pick % ((activeIds db.users
                      (t - ACTIVE_WINDOW)).filter (fun uid => uid ≠ s)).length) 0) ∈
                    (db_update_balance db s (sender.balance - amount)).users.map Prod.fst := by
                  rw [keys_db_update_balance]
                  exact activeIds_sub _ (List.mem_of_mem_filter (getD_mod_mem hr pick))
                refine conserved_of (sumBalances_db_set_active _ _ _) ?_ ?_ ?_ ?_ <;>
                  try exact sumKind_congr (transfers_db_set_active _ _ _) _
                unfold Conserved
                rw [creditRecipient_sumBalances s amount t hmem,
                  creditRecipient_sumKind _ _ _ _ _ (by decide),
                  creditRecipient_sumKind _ _ _ _ _ (by decide),
                  creditRecipient_sumKind _ _ _ _ _ (by decide),
                  sumBalances_db_update_balance hs]
                have hk : ∀ k, sumKind (db_update_balance db s
                    (sender.balance - amount)) k = sumKind db k :=
                  fun k => sumKind_congr (transfers_db_update_balance _ _ _) k
                rw [hk, hk, hk]
                unfold Conserved at h
                rw [h]
                ring

theorem conserved_applyOp {db : DB} (op : Op) (h : Conserved db) :
    Conserved (applyOp db op) := by
  cases op with
  | upsert uid un t => exact conserved_db_upsert_user uid un t h
  | start uid un addr t =>
      exact conserved_get_or_create uid addr (conserved_db_upsert_user uid un t h)
  | scan uid v t => exact conserved_scan_account uid v t h
  | tip s mode a pick t => exact conserved_cmd_tip s mode a pick t h
  | withdraw uid un a addr f t => exact conserved_cmd_withdraw uid un a addr f t h
  | faucet uid un t => exact conserved_cmd_faucet uid un t h

theorem conserved_foldl : ∀ (ops : List Op) (db : DB), Conserved db →
    Conserved (ops.foldl applyOp db) := by
  intro ops
  induction ops with
  | nil => intro db h; exact h
  | cons op rest ih =>
      intro db h
      simp only [List.foldl_cons]
      exact ih _ (conserved_applyOp op h)

theorem conserved_empty : Conserved DB.empty := by
  simp [Conserved, DB.empty, sumBalances, sumKind]

/- ## Nonnegative balances, operation by operation -/

theorem nonneg_db_update_balance {db : DB} {v : ℚ} (i : ℕ)
    (h : NonnegBalances db) (hv : 0 ≤ v) :
    NonnegBalances (db_update_balance db i v) := by
  intro p hp
  exact nonneg_updateUser (fun a => { a with balance := v }) i (fun a _ => hv) h p hp

theorem nonneg_balance_eq_update {db : DB} (f : Account → Account) (i : ℕ)
    (hf : ∀ a, (f a).balance = a.balance) (h : NonnegBalances db) :
    NonnegBalances { db with users := updateUser f db.users i } := by
  intro p hp
  exact nonneg_updateUser f i (fun a ha => (hf a) ▸ ha) h p hp

theorem nonneg_db_upsert_user {db : DB} (i : ℕ) (un : String) (t : ℤ)
    (h : NonnegBalances db) : NonnegBalances (db_upsert_user db i un t) := by
  unfold db_upsert_user
  cases hu : lookupUser db.users i with
  | some u =>
      exact nonneg_balance_eq_update _ i (fun a => rfl) h
  | none =>
      intro p hp
      simp only [List.mem_append] at hp
      rcases hp with hp | hp
      · exact h p hp
      · simp at hp
        rw [hp]

theorem nonneg_db_set_deposit_address {db : DB} (i : ℕ) (addr : String)
    (h : NonnegBalances db) : NonnegBalances (db_set_deposit_address db i addr) :=
  nonneg_balance_eq_update _ i (fun a => rfl) h

theorem nonneg_db_set_credited_total {db : DB} (i : ℕ) (v : ℚ)
    (h : NonnegBalances db) : NonnegBalances (db_set_credited_total db i v) :=
  nonneg_balance_eq_update _ i (fun a => rfl) h

theorem nonneg_db_set_last_faucet {db : DB} (i : ℕ) (v : ℤ)
    (h : NonnegBalances db) : NonnegBalances (db_set_last_faucet db i v) :=
  nonneg_balance_eq_update _ i (fun a => rfl) h

theorem nonneg_db_set_active {db : DB} (i : ℕ) (t : ℤ)
    (h : NonnegBalances db) : NonnegBalances (db_set_active db i t) :=
  nonneg_balance_eq_update _ i (fun a => rfl) h

theorem nonneg_db_add_transfer {db : DB} (k : String) (f_tg to_tg : Option ℕ)
    (a : ℚ) (x : Option String) (ts : ℤ) (h : NonnegBalances db) :
    NonnegBalances (db_add_transfer db k f_tg to_tg a x ts) := h

theorem nonneg_get_or_create {db : DB} (uid : ℕ) (addr : String)
    (h : NonnegBalances db) :
    NonnegBalances (get_or_create_deposit_address db uid addr).1 := by
  unfold get_or_create_deposit_address
  cases hu : db_get_user db uid with
  | none => simpa using nonneg_db_set_deposit_address uid addr h
  | some u =>
      cases ha : u.deposit_address with
      | some a => simpa [ha] using h
      | none => simpa [ha] using nonneg_db_set_deposit_address uid addr h

theorem nonneg_scan_account {db : DB} (uid : ℕ) (v : ℚ) (t : ℤ)
    (h : NonnegBalances db) : NonnegBalances (scan_account db uid v t) := by
  unfold scan_account
  cases hu : db_get_user db uid with
  | none => simpa using h
  | some u =>
      cases haddr : u.deposit_address with
      | none => simpa [haddr] using h
      | some addr =>
          by_cases hcr : u.credited_total < v
          · simp only [haddr, hcr, if_true]
            have hub : 0 ≤ u.balance := h (uid, u) (lookupUser_mem hu)
            refine nonneg_db_add_transfer _ _ _ _ _ _ ?_
            refine nonneg_db_set_credited_total _ _ ?_
            exact nonneg_db_update_balance uid h (by linarith)
          · simpa [haddr, hcr] using h

theorem nonneg_cmd_withdraw {db : DB} (uid : ℕ) (un : String) (amount : ℚ)
    (addr : String) (sendF : String → ℚ → Option String) (t : ℤ)
    (h : NonnegBalances db) : NonnegBalances (cmd_withdraw db uid un amount addr sendF t).1 := by
  unfold cmd_withdraw
  simp only []
  have h0 : NonnegBalances (db_upsert_user db uid un t) := nonneg_db_upsert_user uid un t h
  by_cases h1 : amount ≤ 0
  · simpa [h1] using h0
  · rw [if_neg h1]
    cases hu : db_get_user (db_upsert_user db uid un t) uid with
    | none => simpa using h0
    | some u =>
        simp only []
        by_cases h2 : u.balance < amount
        · simpa [h2] using h0
        · rw [if_neg h2]
          by_cases h3 : amount - WITHDRAW_FEE ≤ 0
          · simpa [h3] using h0
          · rw [if_neg h3]
            cases hsd : sendF addr (amount - WITHDRAW_FEE) with
            | none => simpa using h0
            | some txid =>
                show NonnegBalances (db_add_transfer (db_update_balance
                  (db_upsert_user db uid un t) uid (u.balance - amount))
                  "withdraw" (some uid) none amount (some txid) t)
                refine nonneg_db_add_transfer _ _ _ _ _ _ ?_
                exact nonneg_db_update_balance uid h0 (by linarith [not_lt.mp h2])

theorem nonneg_cmd_faucet {db : DB} (uid : ℕ) (un : String) (t : ℤ)
    (h : NonnegBalances db) : NonnegBalances (cmd_faucet db uid un t).1 := by
  unfold cmd_faucet
  simp only []
  have h0 : NonnegBalances (db_upsert_user db uid un t) := nonneg_db_upsert_user uid un t h
  cases hu : db_get_user (db_upsert_user db uid un t) uid with
  | none => simpa using h0
  | some u =>
      simp only []
      by_cases hc : t - u.last_faucet_ts < FAUCET_INTERVAL
      · simpa [hc] using h0
      · rw [if_neg hc]
        show NonnegBalances (db_add_transfer (db_set_last_faucet (db_update_balance
          (db_upsert_user db uid un t) uid (u.balance + FAUCET_AMOUNT)) uid t)
          "faucet" none (some uid) FAUCET_AMOUNT none t)
        have hub : 0 ≤ u.balance := h0 (uid, u) (lookupUser_mem hu)
        refine nonneg_db_add_transfer _ _ _ _ _ _ ?_
        refine nonneg_db_set_last_faucet _ _ ?_
        refine nonneg_db_update_balance uid h0 ?_
        have : (0:ℚ) ≤ FAUCET_AMOUNT := by norm_num [FAUCET_AMOUNT]
        linarith

theorem nonneg_cmd_tip {db : DB} (s : ℕ) (mode : TipMode) (amount : ℚ)
    (pick : ℕ) (t : ℤ) (h : NonnegBalances db) :
    NonnegBalances (cmd_tip db s mode amount pick t).1 := by
  unfold cmd_tip
  cases hs : db_get_user db s with
  | none => simpa using h
  | some sender =>
      simp only []
      by_cases h1 : amount ≤ 0
      · simpa [h1] using h
      · rw [if_neg h1]
        have hamt : (0:ℚ) ≤ amount := le_of_lt (lt_of_not_le h1)
        by_cases h2 : sender.balance < amount
        · simpa [h2] using h
        · rw [if_neg h2]
          cases mode with
          | direct un =>
              simp only []
              cases hf : findByUsername db.users un.toLower with
              | none => simpa using h
              | some uid =>
                  show NonnegBalances (db_set_active (creditRecipient
                    (db_update_balance db s (sender.balance - amount)) s uid amount t) s t)
                  refine nonneg_db_set_active _ _ ?_
                  refine creditRecipient_nonneg _ _ _ ?_ hamt
                  exact nonneg_db_update_balance s h (by linarith [not_lt.mp h2])
          | active =>
              simp only []
              by_cases hr : (activeIds db.users (t - ACTIVE_WINDOW)).filter
                  (fun uid => uid ≠ s) = []
              · rw [if_pos hr]
                simpa using h
              · rw [if_neg hr]
                by_cases h3 : sender.balance <
                    quantize8 (amount / (((activeIds db.users (t - ACTIVE_WINDOW)).filter
                      (fun uid => uid ≠ s)).length : ℚ)) *
                      (((activeIds db.users (t - ACTIVE_WINDOW)).filter
                        (fun uid => uid ≠ s)).length : ℚ)
                · rw [if_pos h3]
                  simpa using h
                · rw [if_neg h3]
                  show NonnegBalances (db_set_active (((activeIds db.users (t - ACTIVE_WINDOW)).filter
                    (fun uid => uid ≠ s)).foldl (fun d uid => creditRecipient d s uid
                      (quantize8 (amount / (((activeIds db.users (t - ACTIVE_WINDOW)).filter
                        (fun uid => uid ≠ s)).length : ℚ))) t)
                    (db_update_balance db s (sender.balance -
                      quantize8 (amount / (((activeIds db.users (t - ACTIVE_WINDOW)).filter
                        (fun uid => uid ≠ s)).length : ℚ)) *
                        (((activeIds db.users (t - ACTIVE_WINDOW)).filter
                          (fun uid => uid ≠ s)).length : ℚ)))) s t)
                  have hshare : (0:ℚ) ≤ quantize8 (amount / (((activeIds db.users
                      (t - ACTIVE_WINDOW)).filter (fun uid => uid ≠ s)).length : ℚ)) := by
                    refine quantize8_nonneg ?_
                    refine div_nonneg hamt ?_
                    positivity
                  refine nonneg_db_set_active _ _ ?_
                  refine foldl_credit_nonneg _ _ hshare _ _ ?_
                  exact nonneg_db_update_balance s h (by linarith [not_lt.mp h3])
          | lucky =>
              simp only []
              by_cases hr : (activeIds db.users (t - ACTIVE_WINDOW)).filter
                  (fun uid => uid ≠ s) = []
              · rw [if_pos hr]
                simpa using h
              · rw [if_neg hr]
                show NonnegBalances (db_set_active (creditRecipient
                  (db_update_balance db s (sender.balance - amount)) s
                  (((activeIds db.users (t - ACTIVE_WINDOW)).filter
                    (fun uid => uid ≠ s)).getD (pick % ((activeIds db.users
                      (t - ACTIVE_WINDOW)).filter (fun uid => uid ≠ s)).length) 0)
                  amount t) s t)
                refine nonneg_db_set_active _ _ ?_
                refine creditRecipient_nonneg _ _ _ ?_ hamt
                exact nonneg_db_update_balance s h (by linarith [not_lt.mp h2])

theorem nonneg_applyOp {db : DB} (op : Op) (h : NonnegBalances db) :
    NonnegBalances (applyOp db op) := by
  cases op with
  | upsert uid un t => exact nonneg_db_upsert_user uid un t h
  | start uid un addr t =>
      exact nonneg_get_or_create uid addr (nonneg_db_upsert_user uid un t h)
  | scan uid v t => exact nonneg_scan_account uid v t h
  | tip s mode a pick t => exact nonneg_cmd_tip s mode a pick t h
  | withdraw uid un a addr f t => exact nonneg_cmd_withdraw uid un a addr f t h
  | faucet uid un t => exact nonneg_cmd_faucet uid un t h

theorem nonneg_foldl : ∀ (ops : List Op) (db : DB), NonnegBalances db →
    NonnegBalances (ops.foldl applyOp db) := by
  intro ops
  induction ops with
  | nil => intro db h; exact h
  | cons op rest ih =>
      intro db h
      simp only [List.foldl_cons]
      exact ih _ (nonneg_applyOp op h)

theorem nonneg_empty : NonnegBalances DB.empty := by
  intro p hp
  simp [DB.empty] at hp

/- ## Lookup after upsert, and the split-tip loop in detail -/

theorem db_get_user_upsert_self {db : DB} {uid : ℕ} {u0 : Account} (un : String) (t : ℤ)
    (h : db_get_user db uid = some u0) :
    db_get_user (db_upsert_user db uid un t) uid =
      some { u0 with username := un, last_active_ts := t } := by
  have h' : lookupUser db.users uid = some u0 := h
  unfold db_upsert_user
  rw [h']
  simp only []
  unfold db_get_user
  simp only []
  rw [lookupUser_updateUser_self, h']
  rfl

theorem db_get_user_upsert_new {db : DB} {uid : ℕ} (un : String) (t : ℤ)
    (h : db_get_user db uid = none) :
    db_get_user (db_upsert_user db uid un t) uid =
      some { username := un, deposit_address := none, credited_total := 0,
             balance := 0, last_faucet_ts := 0, last_active_ts := t, created_ts := t } := by
  have h' : lookupUser db.users uid = none := h
  unfold db_upsert_user
  rw [h']
  simp only []
  unfold db_get_user
  simp only []
  rw [lookupUser_append_of_none h']
  simp [lookupUser]

theorem db_get_user_upsert_ne {db : DB} {uid j : ℕ} (un : String) (t : ℤ)
    (hne : j ≠ uid) :
    db_get_user (db_upsert_user db uid un t) j = db_get_user db j := by
  unfold db_upsert_user db_get_user
  cases h' : lookupUser db.users uid with
  | some u =>
      simp only []
      exact lookupUser_updateUser_ne _ _ hne
  | none =>
      simp only []
      cases hj : lookupUser db.users j with
      | some b => exact lookupUser_append_left hj
      | none =>
          rw [lookupUser_append_of_none hj]
          simp [lookupUser, Ne.symm hne]

theorem foldl_credit_lookup (s : ℕ) (sh : ℚ) (t : ℤ) :
    ∀ (recips : List ℕ) (db : DB),
      (∀ uid ∈ recips, uid ∈ db.users.map Prod.fst) →
      recips.Nodup →
      ((recips.foldl (fun d uid => creditRecipient d s uid sh t) db).transfers =
         db.transfers ++ recips.map
           (fun uid => ⟨"tip", some s, some uid, sh, none, t⟩)) ∧
      (∀ j, j ∉ recips →
         lookupUser (recips.foldl (fun d uid => creditRecipient d s uid sh t) db).users j =
           lookupUser db.users j) ∧
      (∀ uid ∈ recips, ∀ u, lookupUser db.users uid = some u →
         lookupUser (recips.foldl (fun d uid => creditRecipient d s uid sh t) db).users uid =
           some { u with balance := u.balance + sh }) := by
  intro recips
  induction recips with
  | nil =>
      intro db _ _
      refine ⟨by simp, fun j _ => rfl, fun uid hu => absurd hu (List.not_mem_nil uid)⟩
  | cons r rest ih =>
      intro db hpres hnd
      obtain ⟨ur, hur⟩ := lookup_isSome_of_mem_keys (hpres r (List.mem_cons_self _ _))
      have hrstep : creditRecipient db s r sh t =
          db_add_transfer (db_update_balance db r (ur.balance + sh))
            "tip" (some s) (some r) sh none t := by
        unfold creditRecipient
        rw [show db_get_user db r = some ur from hur]
      have hkeys : (creditRecipient db s r sh t).users.map Prod.fst =
          db.users.map Prod.fst := creditRecipient_keys db s r sh t
      have hrnotin : r ∉ rest := (List.nodup_cons.mp hnd).1
      have hndrest : rest.Nodup := (List.nodup_cons.mp hnd).2
      have hpres' : ∀ uid ∈ rest, uid ∈ (creditRecipient db s r sh t).users.map Prod.fst := by
        intro uid hu
        rw [hkeys]
        exact hpres uid (List.mem_cons_of_mem _ hu)
      obtain ⟨ihtr, ihother, ihhit⟩ := ih (creditRecipient db s r sh t) hpres' hndrest
      have hlookup_r : lookupUser (creditRecipient db s r sh t).users r =
          some { ur with balance := ur.balance + sh } := by
        rw [hrstep]
        show lookupUser (updateUser (fun a => { a with balance := ur.balance + sh })
          db.users r) r = _
        rw [lookupUser_updateUser_self, hur]
        rfl
      have hlookup_ne : ∀ j, j ≠ r →
          lookupUser (creditRecipient db s r sh t).users j = lookupUser db.users j := by
        intro j hj
        rw [hrstep]
        exact lookupUser_updateUser_ne _ _ hj
      refine ⟨?_, ?_, ?_⟩
      · simp only [List.foldl_cons]
        rw [ihtr, hrstep]
        simp [db_add_transfer, db_update_balance]
      · intro j hj
        simp only [List.foldl_cons]
        rw [ihother j (fun hc => hj (List.mem_cons_of_mem _ hc))]
        exact hlookup_ne j (fun hc => hj (hc ▸ List.mem_cons_self _ _))
      · intro uid hu u hu0
        simp only [List.foldl_cons]
        rcases List.mem_cons.mp hu with hu | hu
        · subst hu
          have : u = ur := by
            rw [hur] at hu0
            exact (Option.some.injEq _ _ ▸ hu0).symm
          subst this
          rw [ihother uid hrnotin]
          exact hlookup_r
        · have hne : uid ≠ r := fun hc => hrnotin (hc ▸ hu)
          exact ihhit uid hu u (by rw [hlookup_ne uid hne]; exact hu0)

/- ## Claims -/

/-- C1 (corrected): after any finite sequence of operations from the empty
ledger, the sum of all balances equals the sum of recorded deposit amounts
plus the sum of recorded faucet amounts minus the sum of recorded withdraw
amounts.  The recorded withdraw amounts are gross (fee included), so no
separate fee term appears; tip transfers net to zero. -/
theorem C1_conservation_gross (ops : List Op) :
    sumBalances (runOps ops) =
      sumKind (runOps ops) "deposit" + sumKind (runOps ops) "faucet" -
        sumKind (runOps ops) "withdraw" := by
  exact conserved_foldl ops DB.empty conserved_empty

/-- C1 counterexample: deposit 10 then withdraw 2 with fee 1 leaves balance 8,
but the claimed equation predicts 10 - 2 - 1 = 7, because the recorded
withdraw amount 2 already includes the fee. -/
theorem C1_cex :
    ¬ (sumBalances (runOps seqC1) =
        sumKind (runOps seqC1) "deposit" + sumKind (runOps seqC1) "faucet" -
          sumKind (runOps seqC1) "withdraw" - sumFees (runOps seqC1)) := by
  simp only [seqC1, runOps, applyOp, cmd_withdraw, scan_account, get_or_create_deposit_address,
    db_upsert_user, db_get_user, lookupUser, updateUser, db_update_balance, db_add_transfer,
    db_set_deposit_address, db_set_credited_total, db_set_last_faucet, db_set_active, DB.empty,
    sumBalances, sumKind, countKind, sumFees, List.foldl]
  simp [List.filter]
  norm_num [WITHDRAW_FEE, FAUCET_AMOUNT]

/-- C2 (confirmed): every stored balance is nonnegative after every operation
sequence from the empty ledger, and both debiting operations (withdraw, tip in
every mode) fail without any state change when the balance does not cover the
debited amount. -/
theorem C2_balances_nonneg :
    (∀ (ops : List Op) (uid : ℕ) (u : Account),
        db_get_user (runOps ops) uid = some u → 0 ≤ u.balance) ∧
    (∀ (db : DB) (uid : ℕ) (un : String) (amount : ℚ) (addr : String)
        (sendF : String → ℚ → Option String) (t : ℤ) (u : Account),
        db_get_user (db_upsert_user db uid un t) uid = some u →
        0 < amount → u.balance < amount →
        cmd_withdraw db uid un amount addr sendF t =
          (db_upsert_user db uid un t, WithdrawResult.insufficientBalance)) ∧
    (∀ (db : DB) (s : ℕ) (mode : TipMode) (amount : ℚ) (pick : ℕ) (t : ℤ)
        (sender : Account),
        db_get_user db s = some sender → 0 < amount → sender.balance < amount →
        cmd_tip db s mode amount pick t = (db, TipResult.insufficientBalance)) := by
  refine ⟨?_, ?_, ?_⟩
  · intro ops uid u hu
    exact nonneg_foldl ops DB.empty nonneg_empty (uid, u) (lookupUser_mem hu)
  · intro db uid un amount addr sendF t u hu hpos hlt
    unfold cmd_withdraw
    simp only []
    rw [if_neg (not_le.mpr hpos)]
    rw [show db_get_user (db_upsert_user db uid un t) uid = some u from hu]
    simp only []
    rw [if_pos hlt]
  · intro db s mode amount pick t sender hs hpos hlt
    unfold cmd_tip
    rw [show db_get_user db s = some sender from hs]
    simp only []
    rw [if_neg (not_le.mpr hpos), if_pos hlt]

/-- C3 (confirmed): crediting against the watermark is a no-op when the
reported cumulative value does not exceed the stored credited_total; when it
does, the difference is credited, the watermark is raised to the reported
value, exactly one deposit transfer of the difference is appended, and
replaying the same cumulative value is a no-op (credits exactly once). -/
theorem C3_applyCredit (db : DB) (uid : ℕ) (v : ℚ) (t t2 : ℤ) (u : Account)
    (addr : String) (hu : db_get_user db uid = some u)
    (haddr : u.deposit_address = some addr) :
    (v ≤ u.credited_total → scan_account db uid v t = db) ∧
    (u.credited_total < v →
      db_get_user (scan_account db uid v t) uid =
        some { u with credited_total := v,
                      balance := u.balance + (v - u.credited_total) } ∧
      (scan_account db uid v t).transfers =
        db.transfers ++ [⟨"deposit", none, some uid, v - u.credited_total, none, t⟩]) ∧
    scan_account (scan_account db uid v t) uid v t2 = scan_account db uid v t := by
  have h' : lookupUser db.users uid = some u := hu
  have hnoop : ∀ (t' : ℤ), v ≤ u.credited_total → scan_account db uid v t' = db := by
    intro t' hle
    unfold scan_account
    rw [hu]
    simp only []
    rw [haddr]
    simp only []
    rw [if_neg (not_lt.mpr hle)]
  have hform : u.credited_total < v → scan_account db uid v t =
      db_add_transfer (db_set_credited_total (db_update_balance db uid
        (u.balance + (v - u.credited_total))) uid v) "deposit" none (some uid)
        (v - u.credited_total) none t := by
    intro hlt
    unfold scan_account
    rw [hu]
    simp only []
    rw [haddr]
    simp only []
    rw [if_pos hlt]
  have hlookup : u.credited_total < v →
      db_get_user (scan_account db uid v t) uid =
        some { u with credited_total := v,
                      balance := u.balance + (v - u.credited_total) } := by
    intro hlt
    rw [hform hlt]
    unfold db_get_user db_add_transfer db_set_credited_total db_update_balance
    simp only []
    rw [lookupUser_updateUser_self, lookupUser_updateUser_self, h']
    rfl
  refine ⟨hnoop t, fun hlt => ⟨hlookup hlt, ?_⟩, ?_⟩
  · rw [hform hlt]
    rfl
  · by_cases hlt : u.credited_total < v
    · have hl2 := hlookup hlt
      set X := scan_account db uid v t with hX
      unfold scan_account
      rw [hl2]
      simp only []
      rw [haddr]
      simp only []
      rw [if_neg (lt_irrefl v)]
    · rw [hnoop t (not_lt.mp hlt), hnoop t2 (not_lt.mp hlt)]

/-- C3 witness: with watermark 3 and balance 2, a reported cumulative of 10
credits 7, raises the watermark to 10, appends one deposit transfer of 7,
and a replay of the same report changes nothing. -/
theorem C3_witness :
    db_get_user (scan_account dbC3 1 10 0) 1 =
      some { username := "a", deposit_address := some "A", credited_total := 10,
             balance := 9, last_faucet_ts := 0, last_active_ts := 0, created_ts := 0 } ∧
    (scan_account dbC3 1 10 0).transfers = [⟨"deposit", none, some 1, 7, none, 0⟩] ∧
    scan_account (scan_account dbC3 1 10 0) 1 10 5 = scan_account dbC3 1 10 0 := by
  have h := C3_applyCredit dbC3 1 10 0 5 accC3 "A"
    (by simp [dbC3, db_get_user, lookupUser]) (by simp [accC3])
  have hlt : accC3.credited_total < 10 := by norm_num [accC3]
  obtain ⟨hb1, hb2⟩ := h.2.1 hlt
  refine ⟨?_, ?_, h.2.2⟩
  · rw [hb1]
    norm_num [accC3]
  · rw [hb2]
    norm_num [dbC3, accC3]

/-- C4 (confirmed): the external send is attempted before any debit; when the
send fails, withdraw reports an RPC error and leaves the balance, the
watermark and the transfer log exactly as before. -/
theorem C4_send_failure (db : DB) (uid : ℕ) (un : String) (amount : ℚ)
    (addr : String) (sendF : String → ℚ → Option String) (t : ℤ) (u0 : Account)
    (h0 : db_get_user db uid = some u0) (h1 : 0 < amount) (h2 : amount ≤ u0.balance)
    (h3 : WITHDRAW_FEE < amount) (hsend : sendF addr (amount - WITHDRAW_FEE) = none) :
    (cmd_withdraw db uid un amount addr sendF t).2 = WithdrawResult.rpcError ∧
    (∃ u, db_get_user (cmd_withdraw db uid un amount addr sendF t).1 uid = some u ∧
       u.balance = u0.balance ∧ u.credited_total = u0.credited_total) ∧
    (cmd_withdraw db uid un amount addr sendF t).1.transfers = db.transfers := by
  have hup := db_get_user_upsert_self un t h0
  have hform : cmd_withdraw db uid un amount addr sendF t =
      (db_upsert_user db uid un t, WithdrawResult.rpcError) := by
    unfold cmd_withdraw
    simp only []
    rw [if_neg (not_le.mpr h1), hup]
    simp only []
    rw [if_neg (not_lt.mpr h2), if_neg (not_le.mpr (by linarith : (0:ℚ) < amount - WITHDRAW_FEE)), hsend]
  rw [hform]
  exact ⟨rfl, ⟨_, hup, rfl, rfl⟩, transfers_db_upsert_user db uid un t⟩

/-- C4 witness: balance 10, withdraw 5 with a failing send reports an RPC
error, balance and watermark keep their values, no transfer is appended. -/
theorem C4_witness :
    (cmd_withdraw dbC4 1 "b" 5 "dst" (fun _ _ => none) 0).2 = WithdrawResult.rpcError ∧
    (∃ u, db_get_user (cmd_withdraw dbC4 1 "b" 5 "dst" (fun _ _ => none) 0).1 1 = some u ∧
       u.balance = accC4.balance ∧ u.credited_total = accC4.credited_total) ∧
    (cmd_withdraw dbC4 1 "b" 5 "dst" (fun _ _ => none) 0).1.transfers = dbC4.transfers :=
  C4_send_failure dbC4 1 "b" 5 "dst" (fun _ _ => none) 0 accC4
    (by simp [dbC4, db_get_user, lookupUser]) (by norm_num)
    (by norm_num [accC4]) (by norm_num [WITHDRAW_FEE]) rfl

/-- C5 (corrected): on a successful withdraw of amount a with fee f, a > f and
balance >= a, the external send is invoked with a - f, the balance drops by
the full amount a, and exactly one withdraw transfer is appended recording
the GROSS amount a (not the net a - f) together with the transmission id. -/
theorem C5_withdraw_success (db : DB) (uid : ℕ) (un : String) (amount : ℚ)
    (addr : String) (sendF : String → ℚ → Option String) (t : ℤ) (u0 : Account)
    (txid : String) (h0 : db_get_user db uid = some u0) (h1 : 0 < amount)
    (h2 : amount ≤ u0.balance) (h3 : WITHDRAW_FEE < amount)
    (hsend : sendF addr (amount - WITHDRAW_FEE) = some txid) :
    (cmd_withdraw db uid un amount addr sendF t).2 = WithdrawResult.success txid ∧
    db_get_user (cmd_withdraw db uid un amount addr sendF t).1 uid =
      some { u0 with username := un, last_active_ts := t,
                     balance := u0.balance - amount } ∧
    (cmd_withdraw db uid un amount addr sendF t).1.transfers =
      db.transfers ++ [⟨"withdraw", some uid, none, amount, some txid, t⟩] := by
  have hup := db_get_user_upsert_self un t h0
  have hform : cmd_withdraw db uid un amount addr sendF t =
      (db_add_transfer (db_update_balance (db_upsert_user db uid un t) uid
        (u0.balance - amount)) "withdraw" (some uid) none amount (some txid) t,
       WithdrawResult.success txid) := by
    unfold cmd_withdraw
    simp only []
    rw [if_neg (not_le.mpr h1), hup]
    simp only []
    rw [if_neg (not_lt.mpr h2),
      if_neg (not_le.mpr (by linarith : (0:ℚ) < amount - WITHDRAW_FEE)), hsend]
  rw [hform]
  refine ⟨rfl, ?_, ?_⟩
  · unfold db_get_user db_add_transfer db_update_balance
    simp only []
    rw [lookupUser_updateUser_self]
    rw [show lookupUser (db_upsert_user db uid un t).users uid =
      some { u0 with username := un, last_active_ts := t } from hup]
    rfl
  · show (db_upsert_user db uid un t).transfers ++ _ = db.transfers ++ _
    rw [transfers_db_upsert_user]

/-- C5 counterexample: withdrawing 5 with fee 1 appends a withdraw transfer of
amount 5, not the net 4 = 5 - fee the claim asserts. -/
theorem C5_cex :
    ((cmd_withdraw dbC5 1 "b" 5 "dst" (fun _ _ => some "t9") 0).1.transfers.map
      (fun tr => tr.amount)) = [5] ∧ ¬ ((5:ℚ) = 5 - WITHDRAW_FEE) := by
  constructor
  · simp only [cmd_withdraw, db_upsert_user, db_get_user, lookupUser, updateUser,
      db_update_balance, db_add_transfer, dbC5, accC5]
    norm_num [WITHDRAW_FEE]
  · norm_num [WITHDRAW_FEE]

/-- C5 witness: balance 10, withdraw 5, send succeeds with id t9: result is
success, balance 10 - 5, one gross withdraw record of 5. -/
theorem C5_witness :
    (cmd_withdraw dbC5 1 "b" 5 "dst" (fun _ _ => some "t9") 0).2 =
      WithdrawResult.success "t9" ∧
    db_get_user (cmd_withdraw dbC5 1 "b" 5 "dst" (fun _ _ => some "t9") 0).1 1 =
      some { accC5 with username := "b", last_active_ts := 0,
                        balance := accC5.balance - 5 } ∧
    (cmd_withdraw dbC5 1 "b" 5 "dst" (fun _ _ => some "t9") 0).1.transfers =
      dbC5.transfers ++ [⟨"withdraw", some 1, none, 5, some "t9", 0⟩] :=
  C5_withdraw_success dbC5 1 "b" 5 "dst" (fun _ _ => some "t9") 0 accC5 "t9"
    (by simp [dbC5, db_get_user, lookupUser]) (by norm_num)
    (by norm_num [accC5]) (by norm_num [WITHDRAW_FEE]) rfl

/-- C6 (corrected): the balance check runs BEFORE the fee check, so with
balance < amount the result is InsufficientFunds even when amount <= fee;
the fee check (amount <= fee gives FeeExceedsAmount) is reached only when
balance >= amount.  Both failures leave balances, watermark and the transfer
log unchanged (only the upsert side effect on username and activity time). -/
theorem C6_checks (db : DB) (uid : ℕ) (un : String) (amount : ℚ) (addr : String)
    (sendF : String → ℚ → Option String) (t : ℤ) (u0 : Account)
    (h0 : db_get_user db uid = some u0) (h1 : 0 < amount) :
    (u0.balance < amount →
      cmd_withdraw db uid un amount addr sendF t =
        (db_upsert_user db uid un t, WithdrawResult.insufficientBalance)) ∧
    (amount ≤ u0.balance → amount ≤ WITHDRAW_FEE →
      cmd_withdraw db uid un amount addr sendF t =
        (db_upsert_user db uid un t, WithdrawResult.feeTooHigh)) ∧
    (db_upsert_user db uid un t).transfers = db.transfers ∧
    (∃ u, db_get_user (db_upsert_user db uid un t) uid = some u ∧
       u.balance = u0.balance ∧ u.credited_total = u0.credited_total) := by
  have hup := db_get_user_upsert_self un t h0
  refine ⟨?_, ?_, transfers_db_upsert_user db uid un t, ⟨_, hup, rfl, rfl⟩⟩
  · intro hlt
    unfold cmd_withdraw
    simp only []
    rw [if_neg (not_le.mpr h1), hup]
    simp only []
    rw [if_pos hlt]
  · intro hge hfee
    unfold cmd_withdraw
    simp only []
    rw [if_neg (not_le.mpr h1), hup]
    simp only []
    rw [if_neg (not_lt.mpr hge), if_pos (by linarith : amount - WITHDRAW_FEE ≤ 0)]

/-- C6 counterexample: with balance 0 and amount 1/2 (which is not above the
fee 1), the code reports InsufficientFunds, not the FeeExceedsAmount the
claim requires for any amount not exceeding the fee. -/
theorem C6_cex :
    (cmd_withdraw dbC6 1 "a" (1/2) "d" (fun _ _ => none) 0).2 =
      WithdrawResult.insufficientBalance ∧
    ((1:ℚ)/2) ≤ WITHDRAW_FEE ∧
    WithdrawResult.insufficientBalance ≠ WithdrawResult.feeTooHigh := by
  refine ⟨?_, by norm_num [WITHDRAW_FEE], by simp⟩
  simp only [cmd_withdraw, db_upsert_user, db_get_user, lookupUser, updateUser,
    dbC6, accC2]
  norm_num

/-- C6 witness: balance 0 and amount 5 fail with InsufficientFunds; balance 10
and amount 1/2 (at most the fee 1) fail with FeeExceedsAmount; in both cases
the transfer log is unchanged. -/
theorem C6_witness :
    cmd_withdraw dbC6 1 "a" 5 "d" (fun _ _ => none) 0 =
      (db_upsert_user dbC6 1 "a" 0, WithdrawResult.insufficientBalance) ∧
    cmd_withdraw dbC5 1 "b" (1/2) "d" (fun _ _ => none) 0 =
      (db_upsert_user dbC5 1 "b" 0, WithdrawResult.feeTooHigh) ∧
    (db_upsert_user dbC6 1 "a" 0).transfers = dbC6.transfers := by
  refine ⟨?_, ?_, ?_⟩
  · exact (C6_checks dbC6 1 "a" 5 "d" (fun _ _ => none) 0 accC2
      (by simp [dbC6, db_get_user, lookupUser]) (by norm_num)).1
      (by norm_num [accC2])
  · exact (C6_checks dbC5 1 "b" (1/2) "d" (fun _ _ => none) 0 accC5
      (by simp [dbC5, db_get_user, lookupUser]) (by norm_num)).2.1
      (by norm_num [accC5]) (by norm_num [WITHDRAW_FEE])
  · exact (C6_checks dbC6 1 "a" 5 "d" (fun _ _ => none) 0 accC2
      (by simp [dbC6, db_get_user, lookupUser]) (by norm_num)).2.2.1

/-- C7 (confirmed): a split tip of amount a over the n >= 1 active recipients
(excluding the sender) credits each recipient share = quantize8(a / n), debits
the sender exactly share * n <= a (the rounding remainder stays with the
sender), and appends one tip transfer of share per recipient. -/
theorem C7_split_tip (db : DB) (s : ℕ) (amount : ℚ) (pick : ℕ) (t : ℤ)
    (sender : Account) (hnd : (db.users.map Prod.fst).Nodup)
    (hs : db_get_user db s = some sender)
    (h1 : 0 < amount) (h2 : amount ≤ sender.balance)
    (hr : tipRecips db s t ≠ []) :
    (cmd_tip db s TipMode.active amount pick t).2 = TipResult.success ∧
    tipShare db s t amount * ((tipRecips db s t).length : ℚ) ≤ amount ∧
    db_get_user (cmd_tip db s TipMode.active amount pick t).1 s =
      some { sender with last_active_ts := t,
                         balance := (sender.balance -
                           tipShare db s t amount * ((tipRecips db s t).length : ℚ)) } ∧
    (∀ uid ∈ tipRecips db s t, ∀ u, db_get_user db uid = some u →
       db_get_user (cmd_tip db s TipMode.active amount pick t).1 uid =
         some { u with balance := u.balance + tipShare db s t amount }) ∧
    (cmd_tip db s TipMode.active amount pick t).1.transfers =
      db.transfers ++ (tipRecips db s t).map
        (fun uid => ⟨"tip", some s, some uid, tipShare db s t amount, none, t⟩) := by
  have hfold : (activeIds db.users (t - ACTIVE_WINDOW)).filter (fun uid => uid ≠ s) =
      tipRecips db s t := rfl
  have hfold2 : quantize8 (amount / ((tipRecips db s t).length : ℚ)) =
      tipShare db s t amount := rfl
  have hlen : 0 < (tipRecips db s t).length := List.length_pos.mpr hr
  have hlenQ : (0:ℚ) < ((tipRecips db s t).length : ℚ) := by exact_mod_cast hlen
  have hsh_le : tipShare db s t amount ≤ amount / ((tipRecips db s t).length : ℚ) := by
    rw [← hfold2]
    exact quantize8_le _
  have htot_le : tipShare db s t amount * ((tipRecips db s t).length : ℚ) ≤ amount := by
    calc tipShare db s t amount * ((tipRecips db s t).length : ℚ)
        ≤ (amount / ((tipRecips db s t).length : ℚ)) * ((tipRecips db s t).length : ℚ) :=
          mul_le_mul_of_nonneg_right hsh_le (le_of_lt hlenQ)
      _ = amount := div_mul_cancel₀ amount (ne_of_gt hlenQ)
  have hnot3 : ¬ (sender.balance <
      tipShare db s t amount * ((tipRecips db s t).length : ℚ)) :=
    not_lt.mpr (le_trans htot_le h2)
  have hform : cmd_tip db s TipMode.active amount pick t =
      (db_set_active ((tipRecips db s t).foldl (fun d uid => creditRecipient d s uid
          (tipShare db s t amount) t)
        (db_update_balance db s (sender.balance -
          tipShare db s t amount * ((tipRecips db s t).length : ℚ)))) s t,
       TipResult.success) := by
    unfold cmd_tip
    rw [hs]
    simp only []
    rw [if_neg (not_le.mpr h1), if_neg (not_lt.mpr h2)]
    rw [hfold, hfold2]
    rw [if_neg hr, if_neg hnot3]
  have hsnot : s ∉ tipRecips db s t := by
    intro hc
    exact (of_decide_eq_true (List.mem_filter.mp hc).2) rfl
  have hnodup : (tipRecips db s t).Nodup := by
    have hsub : List.Sublist ((db.users.filter
        (fun p => (t - ACTIVE_WINDOW) ≤ p.2.last_active_ts)).map Prod.fst)
        (db.users.map Prod.fst) :=
      List.Sublist.map Prod.fst (List.filter_sublist db.users)
    have hact : (activeIds db.users (t - ACTIVE_WINDOW)).Nodup :=
      List.Nodup.sublist hsub hnd
    exact hact.filter _
  have hpres : ∀ uid ∈ tipRecips db s t,
      uid ∈ (db_update_balance db s (sender.balance -
        tipShare db s t amount * ((tipRecips db s t).length : ℚ))).users.map Prod.fst := by
    intro uid hu
    rw [keys_db_update_balance]
    exact activeIds_sub uid (List.mem_of_mem_filter hu)
  obtain ⟨htr, hother, hhit⟩ := foldl_credit_lookup s (tipShare db s t amount) t
    (tipRecips db s t)
    (db_update_balance db s (sender.balance -
      tipShare db s t amount * ((tipRecips db s t).length : ℚ))) hpres hnodup
  refine ⟨by rw [hform], htot_le, ?_, ?_, ?_⟩
  · rw [hform]
    show db_get_user (db_set_active _ s t) s = _
    unfold db_get_user db_set_active
    simp only []
    rw [lookupUser_updateUser_self, hother s hsnot]
    unfold db_update_balance
    simp only []
    rw [lookupUser_updateUser_self]
    rw [show lookupUser db.users s = some sender from hs]
    rfl
  · intro uid hu u hu0
    have hne : uid ≠ s := of_decide_eq_true (List.mem_filter.mp hu).2
    rw [hform]
    show db_get_user (db_set_active _ s t) uid = _
    unfold db_get_user db_set_active
    simp only []
    rw [lookupUser_updateUser_ne _ _ hne]
    refine hhit uid hu u ?_
    unfold db_update_balance
    simp only []
    rw [lookupUser_updateUser_ne _ _ hne]
    exact hu0
  · rw [hform]
    show (db_set_active _ s t).transfers = _
    rw [transfers_db_set_active, htr, transfers_db_update_balance]

/-- C7 witness: tipping 1.00000001 to the three active recipients 2, 3, 4
gives each a floor-rounded share of 0.33333333 and succeeds; the sender is
debited share * 3 = 0.99999999, at most the amount. -/
theorem C7_witness :
    tipRecips dbC7 1 0 = [2, 3, 4] ∧
    tipShare dbC7 1 0 (100000001/100000000) = 33333333/100000000 ∧
    (cmd_tip dbC7 1 TipMode.active (100000001/100000000) 0 0).2 = TipResult.success ∧
    tipShare dbC7 1 0 (100000001/100000000) * ((tipRecips dbC7 1 0).length : ℚ) ≤
      100000001/100000000 ∧
    db_get_user (cmd_tip dbC7 1 TipMode.active (100000001/100000000) 0 0).1 2 =
      some { accRecC7 "u2" with balance := ((accRecC7 "u2").balance +
        tipShare dbC7 1 0 (100000001/100000000)) } := by
  have hrec : tipRecips dbC7 1 0 = [2, 3, 4] := by
    simp [tipRecips, activeIds, dbC7, accSendC7, accRecC7, ACTIVE_WINDOW, List.filter]
  have hfl : ⌊(100000001 : ℚ)/3⌋ = (33333333 : ℤ) := by
    rw [Int.floor_eq_iff]
    norm_num
  have hsh : tipShare dbC7 1 0 (100000001/100000000) = 33333333/100000000 := by
    unfold tipShare quantize8
    rw [hrec]
    rw [show ((([2, 3, 4] : List ℕ).length : ℕ) : ℚ) = 3 by norm_num]
    rw [show (100000001:ℚ)/100000000 / 3 * 100000000 = 100000001/3 from by ring]
    rw [hfl]
    norm_num
  have h := C7_split_tip dbC7 1 (100000001/100000000) 0 0 accSendC7
    (by simp [dbC7]) (by simp [dbC7, db_get_user, lookupUser])
    (by norm_num) (by norm_num [accSendC7]) (by rw [hrec]; simp)
  refine ⟨hrec, hsh, h.1, h.2.1, ?_⟩
  exact h.2.2.2.1 2 (by rw [hrec]; norm_num) (accRecC7 "u2")
    (by simp [dbC7, db_get_user, lookupUser])

/-- C8 (confirmed): the faucet claim fails with a cooldown exactly when
now - lastFaucetAt < interval, so the boundary now - lastFaucetAt = interval
succeeds; failure leaves balance and lastFaucetAt unchanged, success credits
the faucet amount, stamps lastFaucetAt = now and appends one faucet
transfer. -/
theorem C8_faucet (db : DB) (uid : ℕ) (un : String) (t : ℤ) (u0 : Account)
    (h0 : db_get_user db uid = some u0) :
    (t - u0.last_faucet_ts < FAUCET_INTERVAL →
      (cmd_faucet db uid un t).2 =
        FaucetResult.cooldown (FAUCET_INTERVAL - (t - u0.last_faucet_ts)) ∧
      (∃ u, db_get_user (cmd_faucet db uid un t).1 uid = some u ∧
         u.balance = u0.balance ∧ u.last_faucet_ts = u0.last_faucet_ts) ∧
      (cmd_faucet db uid un t).1.transfers = db.transfers) ∧
    (FAUCET_INTERVAL ≤ t - u0.last_faucet_ts →
      (cmd_faucet db uid un t).2 = FaucetResult.success ∧
      db_get_user (cmd_faucet db uid un t).1 uid =
        some { u0 with username := un, last_active_ts := t,
                       balance := (u0.balance + FAUCET_AMOUNT), last_faucet_ts := t } ∧
      (cmd_faucet db uid un t).1.transfers =
        db.transfers ++ [⟨"faucet", none, some uid, FAUCET_AMOUNT, none, t⟩]) := by
  have hup := db_get_user_upsert_self un t h0
  constructor
  · intro hc
    have hform : cmd_faucet db uid un t =
        (db_upsert_user db uid un t,
         FaucetResult.cooldown (FAUCET_INTERVAL - (t - u0.last_faucet_ts))) := by
      unfold cmd_faucet
      simp only []
      rw [hup]
      simp only []
      rw [if_pos hc]
    rw [hform]
    exact ⟨rfl, ⟨_, hup, rfl, rfl⟩, transfers_db_upsert_user db uid un t⟩
  · intro hge
    have hform : cmd_faucet db uid un t =
        (db_add_transfer (db_set_last_faucet (db_update_balance
          (db_upsert_user db uid un t) uid (u0.balance + FAUCET_AMOUNT)) uid t)
          "faucet" none (some uid) FAUCET_AMOUNT none t, FaucetResult.success) := by
      unfold cmd_faucet
      simp only []
      rw [hup]
      simp only []
      rw [if_neg (not_lt.mpr hge)]
    rw [hform]
    refine ⟨rfl, ?_, ?_⟩
    · unfold db_get_user db_add_transfer db_set_last_faucet db_update_balance
      simp only []
      rw [lookupUser_updateUser_self, lookupUser_updateUser_self]
      rw [show lookupUser (db_upsert_user db uid un t).users uid =
        some { u0 with username := un, last_active_ts := t } from hup]
      rfl
    · show (db_upsert_user db uid un t).transfers ++ _ = _
      rw [transfers_db_upsert_user]

/-- C8 witness: with lastFaucetAt = 0 and interval 7200, a claim exactly at
t = 7200 (the inclusive boundary) succeeds, credits 50 and stamps the time;
a claim at t = 100 is refused with the cooldown remainder. -/
theorem C8_witness :
    (cmd_faucet dbC8 1 "c" 7200).2 = FaucetResult.success ∧
    db_get_user (cmd_faucet dbC8 1 "c" 7200).1 1 =
      some { accC8 with username := "c", last_active_ts := 7200,
                        balance := (accC8.balance + FAUCET_AMOUNT),
                        last_faucet_ts := 7200 } ∧
    (cmd_faucet dbC8 1 "c" 7200).1.transfers =
      dbC8.transfers ++ [⟨"faucet", none, some 1, FAUCET_AMOUNT, none, 7200⟩] ∧
    (cmd_faucet dbC8 1 "c" 100).2 =
      FaucetResult.cooldown (FAUCET_INTERVAL - (100 - accC8.last_faucet_ts)) := by
  have hb := (C8_faucet dbC8 1 "c" 7200 accC8
    (by simp [dbC8, db_get_user, lookupUser])).2
    (by norm_num [accC8, FAUCET_INTERVAL])
  have hc := (C8_faucet dbC8 1 "c" 100 accC8
    (by simp [dbC8, db_get_user, lookupUser])).1
    (by norm_num [accC8, FAUCET_INTERVAL])
  exact ⟨hb.1, hb.2.1, hb.2.2, hc.1⟩

/-- C9 (corrected): for an existing id, the upsert does NOT leave the stored
row unchanged: it overwrites username and last_active_ts with the given
values, while balance, creditedTotal, deposit address and faucet timestamp
are kept; for an absent id it inserts exactly one fresh row with zero
balance, zero creditedTotal and no deposit address; rows of other ids are
never touched. -/
theorem C9_ensureAccount (db : DB) (i : ℕ) (un : String) (t : ℤ) :
    (∀ u, db_get_user db i = some u →
      db_get_user (db_upsert_user db i un t) i =
        some { u with username := un, last_active_ts := t } ∧
      (db_upsert_user db i un t).users.map Prod.fst = db.users.map Prod.fst ∧
      (db_upsert_user db i un t).transfers = db.transfers) ∧
    (db_get_user db i = none →
      db_get_user (db_upsert_user db i un t) i =
        some { username := un, deposit_address := none, credited_total := 0,
               balance := 0, last_faucet_ts := 0, last_active_ts := t,
               created_ts := t } ∧
      (db_upsert_user db i un t).users.map Prod.fst = db.users.map Prod.fst ++ [i] ∧
      (db_upsert_user db i un t).transfers = db.transfers) ∧
    (∀ j, j ≠ i → db_get_user (db_upsert_user db i un t) j = db_get_user db j) := by
  refine ⟨?_, ?_, fun j hj => db_get_user_upsert_ne un t hj⟩
  · intro u hu
    refine ⟨db_get_user_upsert_self un t hu, ?_, transfers_db_upsert_user db i un t⟩
    unfold db_upsert_user
    rw [show lookupUser db.users i = some u from hu]
    simp only []
    exact keys_updateUser _ _ _
  · intro hnone
    refine ⟨db_get_user_upsert_new un t hnone, ?_, transfers_db_upsert_user db i un t⟩
    unfold db_upsert_user
    rw [show lookupUser db.users i = none from hnone]
    simp only []
    simp

/-- C9 counterexample: upserting an existing account with a new username
changes the stored username, so ensureAccount does not return the existing
account unchanged. -/
theorem C9_cex :
    (db_get_user dbC9 1).map Account.username = some "alice" ∧
    (db_get_user (db_upsert_user dbC9 1 "bob" 5) 1).map Account.username =
      some "bob" ∧
    ("bob" : String) ≠ "alice" := by
  refine ⟨by simp [dbC9, accC9, db_get_user, lookupUser], ?_, by simp⟩
  simp [dbC9, accC9, db_get_user, db_upsert_user, lookupUser, updateUser]

/-- C9 witness: the alice row is rewritten to bob with the new activity time,
other fields kept; a fresh id 2 is created with zero defaults and appended. -/
theorem C9_witness :
    db_get_user (db_upsert_user dbC9 1 "bob" 5) 1 =
      some { accC9 with username := "bob", last_active_ts := 5 } ∧
    db_get_user (db_upsert_user DB.empty 2 "eve" 3) 2 =
      some { username := "eve", deposit_address := none, credited_total := 0,
             balance := 0, last_faucet_ts := 0, last_active_ts := 3,
             created_ts := 3 } ∧
    (db_upsert_user DB.empty 2 "eve" 3).users.map Prod.fst = [2] := by
  have h1 := (C9_ensureAccount dbC9 1 "bob" 5).1 accC9
    (by simp [dbC9, db_get_user, lookupUser])
  have h2 := (C9_ensureAccount DB.empty 2 "eve" 3).2.1
    (by simp [DB.empty, db_get_user, lookupUser])
  exact ⟨h1.1, h2.1, by simpa [DB.empty] using h2.2.1⟩

/-- C10 (corrected): the storage-level setter db_set_deposit_address has no
AlreadyAssigned failure: it overwrites an existing address unconditionally.
Immutability holds only through its sole caller get_or_create_deposit_address,
which returns an already-assigned address unchanged without writing. -/
theorem C10_deposit_address (db : DB) (uid : ℕ) (newAddr : String) :
    (∀ u a, db_get_user db uid = some u → u.deposit_address = some a →
      get_or_create_deposit_address db uid newAddr = (db, a)) ∧
    (∀ u, db_get_user db uid = some u →
      db_get_user (db_set_deposit_address db uid newAddr) uid =
        some { u with deposit_address := some newAddr }) := by
  constructor
  · intro u a hu ha
    unfold get_or_create_deposit_address
    rw [hu]
    simp only []
    rw [ha]
  · intro u hu
    unfold db_get_user db_set_deposit_address
    simp only []
    rw [lookupUser_updateUser_self]
    rw [show lookupUser db.users uid = some u from hu]
    rfl

/-- C10 counterexample: with address A already stored, a second set with a
different address B returns no error and overwrites the stored address, so
setDepositAddress does not fail with AlreadyAssigned nor keep the address. -/
theorem C10_cex :
    (db_get_user dbC10 1).map Account.deposit_address = some (some "A") ∧
    (db_get_user (db_set_deposit_address dbC10 1 "B") 1).map
      Account.deposit_address = some (some "B") ∧
    ("B" : String) ≠ "A" := by
  refine ⟨by simp [dbC10, accC10, db_get_user, lookupUser], ?_, by simp⟩
  simp [dbC10, accC10, db_get_user, db_set_deposit_address, lookupUser, updateUser]

/-- C10 witness: with address A stored, get_or_create returns A and leaves the
database untouched, while a raw setter call with B silently overwrites. -/
theorem C10_witness :
    get_or_create_deposit_address dbC10 1 "C" = (dbC10, "A") ∧
    db_get_user (db_set_deposit_address dbC10 1 "B") 1 =
      some { accC10 with deposit_address := some "B" } :=
  ⟨(C10_deposit_address dbC10 1 "C").1 accC10 "A"
      (by simp [dbC10, db_get_user, lookupUser]) (by simp [accC10]),
   (C10_deposit_address dbC10 1 "B").2 accC10
      (by simp [dbC10, db_get_user, lookupUser])⟩

/-- C2 witness at concrete inputs: a fresh account has balance 0, and both a
withdraw and a tip of 5 from it fail with insufficient balance, state
untouched. -/
theorem C2_witness :
    (0:ℚ) ≤ accC2.balance ∧
    cmd_withdraw DB.empty 1 "a" 5 "d" (fun _ _ => none) 0 =
      (db_upsert_user DB.empty 1 "a" 0, WithdrawResult.insufficientBalance) ∧
    cmd_tip (db_upsert_user DB.empty 1 "a" 0) 1 .lucky 5 0 0 =
      (db_upsert_user DB.empty 1 "a" 0, TipResult.insufficientBalance) := by
  refine ⟨?_, ?_, ?_⟩
  · exact C2_balances_nonneg.1 [.upsert 1 "a" 0] 1 accC2
      (by simp [runOps, applyOp, db_upsert_user, db_get_user, lookupUser, DB.empty,
        List.foldl, accC2])
  · exact C2_balances_nonneg.2.1 DB.empty 1 "a" 5 "d" (fun _ _ => none) 0 accC2
      (by simp [db_upsert_user, db_get_user, lookupUser, DB.empty, accC2])
      (by norm_num) (by norm_num [accC2])
  · exact C2_balances_nonneg.2.2 (db_upsert_user DB.empty 1 "a" 0) 1 .lucky 5 0 0 accC2
      (by simp [db_upsert_user, db_get_user, lookupUser, DB.empty, accC2])
      (by norm_num) (by norm_num [accC2])

end PepTipbot
